import Mathlib

/-!
Verification of the table-schema core of the `data-table-filters` repository.

The development shallowly embeds the TypeScript sources:
* `src/lib/table-schema/types.ts` — the data model (`ColConfig`, descriptors);
* `src/lib/table-schema/col.ts` — the immutable column builder;
* `validate.ts` — the schema validator;
* `serialize.ts` — `serializeSchema` / `deserializeSchema`;
* `infer.ts` — `inferSchemaFromJSON` and its per-column classifier.

JavaScript numbers are modelled as rationals (`ℚ`); `Number.isInteger` becomes
`den = 1`.  JavaScript truthiness of optional strings (`undefined`/`""` falsy)
is modelled explicitly.  Function-valued configuration fields (custom cell
renderers, filter option renderers, sheet components/conditions) are modelled
as presence markers, since the code only ever tests and strips them.
-/

set_option autoImplicit false

namespace DTF

/-- JS truthiness of an optional string: `undefined` and `""` are falsy. -/
def optStrTruthy : Option String → Bool
  | none => false
  | some s => s ≠ ""

/-- Copy an optional string only when truthy (models `if (x) out.f = x`). -/
def keepTruthy (o : Option String) : Option String :=
  if optStrTruthy o then o else none

/-- Rendering of a JS number into a string (template-literal interpolation).
Exact for integral values, which are the only ones the claims exercise. -/
def jsNumRepr (q : ℚ) : String :=
  if q.den = 1 then toString q.num else toString q

/-- Does `l` start with `s`? -/
def startsWithChars : List Char → List Char → Bool
  | [], _ => true
  | _ :: _, [] => false
  | a :: as, b :: bs => a == b && startsWithChars as bs

/-- Does `l` contain `sub` as a contiguous run? -/
def hasSubChars (sub : List Char) : List Char → Bool
  | [] => sub.isEmpty
  | c :: rest => startsWithChars sub (c :: rest) || hasSubChars sub rest

/-- Substring test on strings (models `String.prototype.includes`). -/
def containsSub (msg sub : String) : Bool :=
  hasSubChars sub.data msg.data

-- ── Data model (types.ts) ───────────────────────────────────────────────────

/-- The tagged data-kind variant of a column (`ColKind` in types.ts). -/
inductive ColKind where
  | string
  | number
  | boolean
  | timestamp
  | enum
  | array
  | record
deriving DecidableEq, Repr

/-- The set of filter UI types (`FilterType` in types.ts). -/
inductive FilterType where
  | input
  | checkbox
  | slider
  | timerange
deriving DecidableEq, Repr

/-- A scalar JSON value usable as a checkbox option value
(`string | number | boolean`). -/
inductive ScalarValue where
  | str (s : String)
  | num (q : ℚ)
  | bool (b : Bool)
deriving DecidableEq, Repr

/-- A checkbox option (`Option` in the data-table types). -/
structure FOption where
  label : String
  value : ScalarValue
deriving DecidableEq, Repr

/-- `DisplayConfig` from types.ts.  The `custom` variant's cell renderer is a
function and is modelled by the bare tag: the code only ever detects it. -/
inductive DisplayConfig where
  | text
  | code
  | boolean
  | badge
  | timestamp
  | number (unit : Option String)
  | custom
deriving DecidableEq, Repr

/-- `FilterConfig` from types.ts.  `component` (custom option renderer) and
`presets` (date presets) are function/complex-valued and never serialized;
they are modelled as presence markers. -/
structure FilterConfig where
  type : FilterType
  defaultOpen : Bool
  commandDisabled : Bool
  options : Option (List FOption) := none
  component : Bool := false
  min : Option ℚ := none
  max : Option ℚ := none
  presets : Bool := false
deriving DecidableEq, Repr

/-- `SheetConfig` from types.ts; `component` and `condition` are functions,
modelled as presence markers. -/
structure SheetConfig where
  label : Option String := none
  component : Bool := false
  condition : Bool := false
  className : Option String := none
  skeletonClassName : Option String := none
deriving DecidableEq, Repr

/-- The field collection of `ColConfig` (types.ts), parameterized by the type
of the nested `arrayItem` configuration so the knot can be tied below. -/
structure ColConfigF (A : Type) where
  kind : ColKind
  enumValues : Option (List String) := none
  arrayItem : Option A := none
  optional : Bool := false
  label : String := ""
  description : Option String := none
  display : DisplayConfig
  size : Option ℚ := none
  hidden : Bool := false
  sortable : Bool := false
  filter : Option FilterConfig := none
  sheet : Option SheetConfig := none

/-- `ColConfig` from types.ts: a column configuration whose `arrayItem` field
is itself a full column configuration. -/
inductive ColConfig where
  | mk (fields : ColConfigF ColConfig)

/-- Project the fields out of a `ColConfig`. -/
def ColConfig.cfg : ColConfig → ColConfigF ColConfig
  | .mk c => c

-- ── Serializable descriptors (types.ts) ─────────────────────────────────────

/-- `FilterDescriptor` from types.ts: the function-free mirror of a
`FilterConfig`. -/
structure FilterDescriptor where
  type : FilterType
  defaultOpen : Bool
  commandDisabled : Bool
  options : Option (List FOption) := none
  min : Option ℚ := none
  max : Option ℚ := none
deriving DecidableEq, Repr

/-- `SheetDescriptor` from types.ts. -/
structure SheetDescriptor where
  label : Option String := none
  className : Option String := none
  skeletonClassName : Option String := none
deriving DecidableEq, Repr

/-- The `arrayItemType` payload of a `ColumnDescriptor`. -/
structure ArrayItemDescriptor where
  dataType : ColKind
  enumValues : Option (List String) := none
deriving DecidableEq, Repr

/-- The `display` payload of a `ColumnDescriptor`: `{ type: string; unit?: string }`. -/
structure DisplayDescriptor where
  type : String
  unit : Option String := none
deriving DecidableEq, Repr

/-- `ColumnDescriptor` from types.ts: the JSON form of one column. -/
structure ColumnDescriptor where
  key : String
  label : String
  description : Option String := none
  dataType : ColKind
  enumValues : Option (List String) := none
  arrayItemType : Option ArrayItemDescriptor := none
  optional : Bool
  hidden : Bool
  sortable : Bool
  size : Option ℚ := none
  display : DisplayDescriptor
  filter : Option FilterDescriptor
  sheet : Option SheetDescriptor
deriving DecidableEq, Repr

/-- `SchemaJSON` from types.ts: `{ columns: ColumnDescriptor[] }`. -/
structure SchemaJSON where
  columns : List ColumnDescriptor
deriving DecidableEq, Repr

-- ── Column builder (col.ts) ─────────────────────────────────────────────────

/-- The options record accepted by `filterable(type, options)`.  The source
spreads this plain record into the fresh filter; the typed call sites only
ever pass `options`, `component`, `min`, `max`, `presets`. -/
structure FilterableOpts where
  options : Option (List FOption) := none
  component : Bool := false
  min : Option ℚ := none
  max : Option ℚ := none
  presets : Bool := false

namespace ColBuilder

/-- `label(text)`: copy-on-write override of the label. -/
def label (c : ColConfig) (text : String) : ColConfig :=
  .mk { c.cfg with label := text }

/-- `description(text)`. -/
def description (c : ColConfig) (text : String) : ColConfig :=
  .mk { c.cfg with description := some text }

/-- `display(type, options?)`: the source builds `{ type, ...options }`, which
is exactly a `DisplayConfig` value. -/
def display (c : ColConfig) (d : DisplayConfig) : ColConfig :=
  .mk { c.cfg with display := d }

/-- `filterable(type?, options?)`: builds a fresh filter
`{ type: type || config.filter?.type || "input",
   defaultOpen: existing?.defaultOpen ?? false,
   commandDisabled: existing?.commandDisabled ?? false, ...(options ?? {}) }`. -/
def filterable (c : ColConfig) (type? : Option FilterType) (opts : FilterableOpts) : ColConfig :=
  let filterType :=
    match type? with
    | some t => t
    | none =>
      match c.cfg.filter with
      | some f => f.type
      | none => .input
  let existing := c.cfg.filter
  .mk { c.cfg with
    filter := some
      { type := filterType
        defaultOpen := (existing.map (·.defaultOpen)).getD false
        commandDisabled := (existing.map (·.commandDisabled)).getD false
        options := opts.options
        component := opts.component
        min := opts.min
        max := opts.max
        presets := opts.presets } }

/-- `notFilterable()`: sets `filter: null`. -/
def notFilterable (c : ColConfig) : ColConfig :=
  .mk { c.cfg with filter := none }

/-- `defaultOpen()`: no-op when not filterable, else sets the flag. -/
def defaultOpen (c : ColConfig) : ColConfig :=
  match c.cfg.filter with
  | none => .mk c.cfg
  | some f => .mk { c.cfg with filter := some { f with defaultOpen := true } }

/-- `commandDisabled()`: no-op when not filterable, else sets the flag. -/
def commandDisabled (c : ColConfig) : ColConfig :=
  match c.cfg.filter with
  | none => .mk c.cfg
  | some f => .mk { c.cfg with filter := some { f with commandDisabled := true } }

/-- `hidden()`. -/
def hidden (c : ColConfig) : ColConfig :=
  .mk { c.cfg with hidden := true }

/-- `size(px)`. -/
def size (c : ColConfig) (px : ℚ) : ColConfig :=
  .mk { c.cfg with size := some px }

/-- `sortable()`. -/
def sortable (c : ColConfig) : ColConfig :=
  .mk { c.cfg with sortable := true }

/-- `optional()`. -/
def optional (c : ColConfig) : ColConfig :=
  .mk { c.cfg with optional := true }

/-- `sheet(config?)`: stores `sheetConfig ?? {}`. -/
def sheet (c : ColConfig) (s : Option SheetConfig) : ColConfig :=
  .mk { c.cfg with sheet := some (s.getD {}) }

end ColBuilder

namespace col

/-- `col.string()` factory defaults. -/
def string : ColConfig :=
  .mk { kind := .string
        optional := false
        label := ""
        display := .text
        hidden := false
        sortable := false
        filter := some { type := .input, defaultOpen := false, commandDisabled := false }
        sheet := none }

/-- `col.number()` factory defaults. -/
def number : ColConfig :=
  .mk { kind := .number
        optional := false
        label := ""
        display := .number none
        hidden := false
        sortable := false
        filter := some { type := .input, defaultOpen := false, commandDisabled := false }
        sheet := none }

/-- `col.boolean()` factory defaults, with pre-wired Yes/No options. -/
def boolean : ColConfig :=
  .mk { kind := .boolean
        optional := false
        label := ""
        display := .boolean
        hidden := false
        sortable := false
        filter := some
          { type := .checkbox, defaultOpen := false, commandDisabled := false
            options := some [⟨"Yes", .bool true⟩, ⟨"No", .bool false⟩] }
        sheet := none }

/-- `col.timestamp()` factory defaults. -/
def timestamp : ColConfig :=
  .mk { kind := .timestamp
        optional := false
        label := ""
        display := .timestamp
        hidden := false
        sortable := false
        filter := some { type := .timerange, defaultOpen := false, commandDisabled := false }
        sheet := none }

/-- `col.enum(values)` factory defaults. -/
def colEnum (values : List String) : ColConfig :=
  .mk { kind := .enum
        enumValues := some values
        optional := false
        label := ""
        display := .badge
        hidden := false
        sortable := false
        filter := some { type := .checkbox, defaultOpen := false, commandDisabled := false }
        sheet := none }

/-- `col.array(itemBuilder)` factory defaults; stores the item's `_config`. -/
def array (item : ColConfig) : ColConfig :=
  .mk { kind := .array
        arrayItem := some item
        optional := false
        label := ""
        display := .badge
        hidden := false
        sortable := false
        filter := some { type := .checkbox, defaultOpen := false, commandDisabled := false }
        sheet := none }

/-- `col.record()` factory defaults (not filterable). -/
def record : ColConfig :=
  .mk { kind := .record
        optional := false
        label := ""
        display := .text
        hidden := false
        sortable := false
        filter := none
        sheet := none }

end col

-- ── Serialization (serialize.ts: schema → JSON) ─────────────────────────────

/-- `serializeFilter`: copies the plain-data subset of a filter; `component`
and `presets` are stripped.  `options` is copied when truthy (any array is
truthy in JS), `min`/`max` when not `undefined`. -/
def serializeFilter : Option FilterConfig → Option FilterDescriptor
  | none => none
  | some f => some
      { type := f.type
        defaultOpen := f.defaultOpen
        commandDisabled := f.commandDisabled
        options := f.options.map (fun os => os.map (fun o => { label := o.label, value := o.value }))
        min := f.min
        max := f.max }

/-- `serializeSheet`: copies `label`/`className`/`skeletonClassName` when
truthy; `component` and `condition` are stripped. -/
def serializeSheet : Option SheetConfig → Option SheetDescriptor
  | none => none
  | some s => some
      { label := keepTruthy s.label
        className := keepTruthy s.className
        skeletonClassName := keepTruthy s.skeletonClassName }

/-- The `display` clause of `serializeSchema`: emit `{type: "number", unit}`
only when the unit is set and truthy, otherwise `{type}` alone. -/
def serializeDisplay : DisplayConfig → DisplayDescriptor
  | .text => { type := "text" }
  | .code => { type := "code" }
  | .boolean => { type := "boolean" }
  | .badge => { type := "badge" }
  | .timestamp => { type := "timestamp" }
  | .number u => if optStrTruthy u then { type := "number", unit := u } else { type := "number" }
  | .custom => { type := "custom" }

/-- The body of `serializeSchema` for a single `(key, builder)` entry. -/
def serializeColumn (key : String) (c : ColConfig) : ColumnDescriptor :=
  { key := key
    label := c.cfg.label
    dataType := c.cfg.kind
    optional := c.cfg.optional
    hidden := c.cfg.hidden
    sortable := c.cfg.sortable
    display := serializeDisplay c.cfg.display
    filter := serializeFilter c.cfg.filter
    sheet := serializeSheet c.cfg.sheet
    description := keepTruthy c.cfg.description
    enumValues := c.cfg.enumValues
    arrayItemType := c.cfg.arrayItem.map
      (fun ai => { dataType := ai.cfg.kind, enumValues := ai.cfg.enumValues })
    size := c.cfg.size }

/-- `serializeSchema(definition)`: one descriptor per column, preserving
definition (insertion) order. -/
def serializeSchema (definition : List (String × ColConfig)) : SchemaJSON :=
  { columns := definition.map (fun p => serializeColumn p.1 p.2) }

-- ── Deserialization (serialize.ts: JSON → schema) ───────────────────────────

/-- `defaultDisplayType(kind)` from serialize.ts. -/
def defaultDisplayType : ColKind → String
  | .enum => "badge"
  | .array => "badge"
  | .boolean => "boolean"
  | .timestamp => "timestamp"
  | .number => "number"
  | .string => "text"
  | .record => "text"

/-- Step 1 of `deserializeSchema`: pick the right `col.*` factory from the
descriptor's `dataType` (special-casing enum and array-of-enum). -/
def pickFactory (d : ColumnDescriptor) : ColConfig :=
  if d.dataType = .enum ∧ d.enumValues.isSome then
    col.colEnum (d.enumValues.getD [])
  else if d.dataType = .array ∧ (d.arrayItemType.map (·.dataType) = some .enum)
      ∧ (d.arrayItemType.bind (·.enumValues)).isSome then
    col.array (col.colEnum ((d.arrayItemType.bind (·.enumValues)).getD []))
  else if d.dataType = .boolean then col.boolean
  else if d.dataType = .timestamp then col.timestamp
  else if d.dataType = .number then col.number
  else if d.dataType = .record then col.record
  else col.string

/-- Step 2 of `deserializeSchema`: label and (when truthy) description. -/
def replayLabel (d : ColumnDescriptor) (b : ColConfig) : ColConfig :=
  let b := ColBuilder.label b d.label
  if optStrTruthy d.description then ColBuilder.description b (d.description.getD "") else b

/-- Step 3 of `deserializeSchema`: replay `display`, falling back to the
kind's canonical default when the stored type is `"custom"`. -/
def replayDisplay (d : ColumnDescriptor) (b : ColConfig) : ColConfig :=
  let displayType := if d.display.type = "custom" then defaultDisplayType d.dataType else d.display.type
  if displayType = "number" ∧ optStrTruthy d.display.unit then
    ColBuilder.display b (.number d.display.unit)
  else if displayType = "text" then ColBuilder.display b .text
  else if displayType = "code" then ColBuilder.display b .code
  else if displayType = "boolean" then ColBuilder.display b .boolean
  else if displayType = "badge" then ColBuilder.display b .badge
  else if displayType = "timestamp" then ColBuilder.display b .timestamp
  else b

/-- Step 4 of `deserializeSchema`: replay the filter (or `notFilterable`). -/
def replayFilter (d : ColumnDescriptor) (b : ColConfig) : ColConfig :=
  match d.filter with
  | none => ColBuilder.notFilterable b
  | some f =>
    let b :=
      if f.type = .slider ∧ f.min.isSome ∧ f.max.isSome then
        ColBuilder.filterable b (some .slider) { min := f.min, max := f.max }
      else if f.type = .checkbox then
        ColBuilder.filterable b (some .checkbox) { options := f.options }
      else if f.type = .timerange then
        ColBuilder.filterable b (some .timerange) {}
      else
        ColBuilder.filterable b (some .input) {}
    let b := if f.defaultOpen then ColBuilder.defaultOpen b else b
    if f.commandDisabled then ColBuilder.commandDisabled b else b

/-- Step 5 of `deserializeSchema`: structural modifiers. -/
def replayMods (d : ColumnDescriptor) (b : ColConfig) : ColConfig :=
  let b := if d.hidden then ColBuilder.hidden b else b
  let b := if d.sortable then ColBuilder.sortable b else b
  let b := if d.optional then ColBuilder.optional b else b
  match d.size with
  | some px => ColBuilder.size b px
  | none => b

/-- Step 6 of `deserializeSchema`: replay the sheet, copying truthy fields. -/
def replaySheet (d : ColumnDescriptor) (b : ColConfig) : ColConfig :=
  match d.sheet with
  | none => b
  | some s => ColBuilder.sheet b (some
      { label := keepTruthy s.label
        className := keepTruthy s.className
        skeletonClassName := keepTruthy s.skeletonClassName })

/-- Reconstruct a single column's builder from its JSON descriptor
(the loop body of `deserializeSchema`). -/
def deserializeColumn (d : ColumnDescriptor) : ColConfig :=
  replaySheet d (replayMods d (replayFilter d (replayDisplay d (replayLabel d (pickFactory d)))))

/-- JS object insertion: `definition[key] = builder` replaces an existing
binding in place or appends a fresh one. -/
def objInsert (defn : List (String × ColConfig)) (key : String) (c : ColConfig) :
    List (String × ColConfig) :=
  match defn with
  | [] => [(key, c)]
  | (k, v) :: rest => if k = key then (key, c) :: rest else (k, v) :: objInsert rest key c

/-- `deserializeSchema(json)`: rebuild the ordered definition object. -/
def deserializeSchema (json : SchemaJSON) : List (String × ColConfig) :=
  json.columns.foldl (fun defn d => objInsert defn d.key (deserializeColumn d)) []

-- ── Validator (validate.ts) ─────────────────────────────────────────────────

/-- A JS exception: either an `Error` thrown by `validateSchema` itself, or
the runtime `TypeError` raised by `key[0]!.toUpperCase()` on an empty key
(the TS non-null assertion is erased at runtime). -/
inductive VErr where
  | error (msg : String)
  | typeError (msg : String)
deriving DecidableEq, Repr

/-- Message of the runtime TypeError for `undefined.toUpperCase()`. -/
def typeErrorMsg : String :=
  "Cannot read properties of undefined (reading 'toUpperCase')"

/-- Models `${key[0]!.toUpperCase()}${key.slice(1)}`.  On an empty key the
index is `undefined` and the method call throws. -/
def labelFix (key : String) : Except VErr String :=
  match key.data with
  | [] => .error (.typeError typeErrorMsg)
  | c :: rest => .ok (String.mk (c.toUpper :: rest))

/-- The missing-label error message for a column. -/
def missingLabelMsg (key fix : String) : String :=
  "[createTableSchema] Column \"" ++ key ++ "\" is missing a label.\n" ++
    "  Fix: .label(\"" ++ fix ++ "\")"

/-- The slider min-greater-than-max error message for a column. -/
def sliderOrderMsg (key : String) (mn mx : ℚ) : String :=
  "[createTableSchema] Column \"" ++ key ++ "\": slider min (" ++ jsNumRepr mn ++
    ") must be less than max (" ++ jsNumRepr mx ++ ").\n" ++
    "  Fix: swap the values — .filterable(\"slider\", \x7b min: " ++ jsNumRepr mx ++
    ", max: " ++ jsNumRepr mn ++ " \x7d)"

/-- The slider missing-bounds error message for a column. -/
def sliderBoundsMsg (key : String) : String :=
  "[createTableSchema] Column \"" ++ key ++ "\": slider filter is missing min/max bounds.\n" ++
    "  Fix: .filterable(\"slider\", \x7b min: 0, max: 100 \x7d)"

/-- The loop body of `validateSchema` for one `(key, builder)` entry: the
missing-label check (whose fix-hint computation itself crashes on an empty
key) followed by the slider bound checks. -/
def validateColumn (key : String) (c : ColConfig) : Except VErr Unit :=
  if c.cfg.label = "" then
    match labelFix key with
    | .error e => .error e
    | .ok fix => .error (.error (missingLabelMsg key fix))
  else
    match c.cfg.filter with
    | some f =>
      if f.type = .slider then
        match f.min, f.max with
        | some mn, some mx =>
          if mn > mx then .error (.error (sliderOrderMsg key mn mx)) else .ok ()
        | _, _ => .error (.error (sliderBoundsMsg key))
      else .ok ()
    | none => .ok ()

/-- `validateSchema(definition)`: check every column in definition order and
throw on the first violation. -/
def validateSchema : List (String × ColConfig) → Except VErr Unit
  | [] => .ok ()
  | (k, c) :: rest =>
    match validateColumn k c with
    | .error e => .error e
    | .ok _ => validateSchema rest

-- ── Schema inference (infer.ts) ─────────────────────────────────────────────

/-- An untyped JSON sample value.  `null` models both JS `null` and
`undefined` (the code filters both out together); numbers are rationals. -/
inductive JSValue where
  | null
  | str (s : String)
  | num (q : ℚ)
  | bool (b : Bool)
  | arr (items : List JSValue)
  | obj (fields : List (String × JSValue))

/-- `v === null || v === undefined`. -/
def JSValue.isNull : JSValue → Bool
  | .null => true
  | _ => false

/-- `typeof v === "string"`. -/
def JSValue.isStr : JSValue → Bool
  | .str _ => true
  | _ => false

/-- `typeof v === "number"`. -/
def JSValue.isNum : JSValue → Bool
  | .num _ => true
  | _ => false

/-- `v === true || v === false`. -/
def JSValue.isBool : JSValue → Bool
  | .bool _ => true
  | _ => false

/-- `Array.isArray(v)`. -/
def JSValue.isArr : JSValue → Bool
  | .arr _ => true
  | _ => false

/-- `typeof v === "object" && !Array.isArray(v)` for a non-null value. -/
def JSValue.isPlainObj : JSValue → Bool
  | .obj _ => true
  | _ => false

/-- Characters allowed after the `T` by the ISO-8601 shape regex. -/
def isoTailChar (c : Char) : Bool :=
  c.isDigit || c = ':' || c = '.' || c = 'Z' || c = '+' || c = '-'

/-- The regex `^\d\x7b4\x7d-\d\x7b2\x7d-\d\x7b2\x7d(T[\d:.Z+\-]+)?$`. -/
def isoShapeChars : List Char → Bool
  | a :: b :: c :: d :: '-' :: e :: f :: '-' :: g :: h :: rest =>
    a.isDigit && b.isDigit && c.isDigit && d.isDigit && e.isDigit && f.isDigit &&
    g.isDigit && h.isDigit &&
    (match rest with
     | [] => true
     | 'T' :: cs => !cs.isEmpty && cs.all isoTailChar
     | _ => false)
  | _ => false

/-- `isIso8601(value)`: the shape regex together with `!isNaN(Date.parse(value))`.
`Date.parse` is a host-runtime primitive, so its verdict is abstracted as the
parameter `dateParseOk`. -/
def isIso8601 (dateParseOk : String → Bool) (s : String) : Bool :=
  isoShapeChars s.data && dateParseOk s

/-- `isUnixMs(value)`: an integer in the 13-digit Unix-millisecond range. -/
def isUnixMs (q : ℚ) : Bool :=
  q.den == 1 && decide ((1000000000000 : ℚ) ≤ q) && decide (q ≤ (9999999999999 : ℚ))

/-- One pass of the camelCase boundary regex `([a-z])([A-Z])` → `$1 $2`. -/
def insertCamelSpaces : List Char → List Char
  | a :: b :: rest =>
    if a.isLower && b.isUpper then a :: ' ' :: insertCamelSpaces (b :: rest)
    else a :: insertCamelSpaces (b :: rest)
  | l => l

/-- `keyToLabel(key)`: underscores to spaces, split camelCase, capitalize. -/
def keyToLabel (key : String) : String :=
  let l := key.data.map (fun c => if c = '_' then ' ' else c)
  match insertCamelSpaces l with
  | [] => ""
  | c :: rest => String.mk (c.toUpper :: rest)

/-- The `displayMap` literal inside `makeDescriptor`. -/
def inferDisplayMap : ColKind → String
  | .string => "text"
  | .number => "number"
  | .boolean => "boolean"
  | .timestamp => "timestamp"
  | .enum => "badge"
  | .array => "badge"
  | .record => "text"

/-- The default `input` filter descriptor used by the inference engine. -/
def inferInputFilter : Option FilterDescriptor :=
  some { type := .input, defaultOpen := false, commandDisabled := false }

/-- The `timerange` filter descriptor used by the inference engine. -/
def inferTimerangeFilter : Option FilterDescriptor :=
  some { type := .timerange, defaultOpen := false, commandDisabled := false }

/-- `makeDescriptor(key, label, dataType, filter)` from infer.ts. -/
def makeDescriptor (key label : String) (dataType : ColKind)
    (filter : Option FilterDescriptor) : ColumnDescriptor :=
  { key := key
    label := label
    dataType := dataType
    optional := false
    hidden := false
    sortable := false
    display := { type := inferDisplayMap dataType }
    filter := filter
    sheet := none }

/-- First-seen-order deduplication (JS `new Set(...)` iteration order). -/
def firstSeenAux (seen : List String) : List String → List String
  | [] => []
  | x :: xs => if seen.contains x then firstSeenAux seen xs else x :: firstSeenAux (x :: seen) xs

/-- `Array.from(new Set(l))`. -/
def firstSeenDedup (l : List String) : List String :=
  firstSeenAux [] l

/-- `inferColDescriptor(key, values)` from infer.ts: classify the sampled
values of one key, first matching rule wins. -/
def inferColDescriptor (dateParseOk : String → Bool) (key : String)
    (values : List JSValue) : ColumnDescriptor :=
  let label := keyToLabel key
  let nonNull := values.filter (fun v => !v.isNull)
  if nonNull.isEmpty then
    makeDescriptor key label .string inferInputFilter
  else if nonNull.all (fun v => match v with | .str s => isIso8601 dateParseOk s | _ => false) then
    makeDescriptor key label .timestamp inferTimerangeFilter
  else if nonNull.all (fun v => match v with | .num q => isUnixMs q | _ => false) then
    makeDescriptor key label .timestamp inferTimerangeFilter
  else if nonNull.all JSValue.isBool then
    makeDescriptor key label .boolean
      (some { type := .checkbox, defaultOpen := false, commandDisabled := false })
  else if nonNull.all JSValue.isNum then
    let nums := nonNull.filterMap (fun v => match v with | .num q => some q | _ => none)
    match nums with
    | [] =>
      -- unreachable: this branch has a nonempty, all-numeric `nonNull`
      { makeDescriptor key label .number inferInputFilter with display := { type := "number" } }
    | n :: rest =>
      let mn := rest.foldl min n
      let mx := rest.foldl max n
      let filter : Option FilterDescriptor :=
        if mn ≠ mx then
          some { type := .slider, defaultOpen := false, commandDisabled := false
                 min := some mn, max := some mx }
        else inferInputFilter
      { makeDescriptor key label .number filter with display := { type := "number" } }
  else if nonNull.all JSValue.isArr then
    let allItems := ((nonNull.filterMap (fun v => match v with | .arr xs => some xs | _ => none)).flatten).filter
      (fun v => !v.isNull)
    let allStrings := !allItems.isEmpty && allItems.all JSValue.isStr
    if allStrings then
      let strs := allItems.filterMap (fun v => match v with | .str s => some s | _ => none)
      let distinct := firstSeenDedup strs
      if distinct.length ≤ 10 then
        { key := key
          label := label
          dataType := .array
          arrayItemType := some { dataType := .enum, enumValues := some distinct }
          optional := false
          hidden := false
          sortable := false
          display := { type := "badge" }
          filter := some { type := .checkbox, defaultOpen := false, commandDisabled := false
                           options := some (distinct.map (fun v => { label := v, value := .str v })) }
          sheet := none }
      else makeDescriptor key label .array none
    else makeDescriptor key label .array none
  else if nonNull.all JSValue.isPlainObj then
    makeDescriptor key label .record none
  else if nonNull.all JSValue.isStr then
    let strs := nonNull.filterMap (fun v => match v with | .str s => some s | _ => none)
    let distinct := firstSeenDedup strs
    if distinct.length ≤ 10 then
      { key := key
        label := label
        dataType := .enum
        enumValues := some distinct
        optional := false
        hidden := false
        sortable := false
        display := { type := "badge" }
        filter := some { type := .checkbox, defaultOpen := false, commandDisabled := false
                         options := some (distinct.map (fun v => { label := v, value := .str v })) }
        sheet := none }
    else makeDescriptor key label .string inferInputFilter
  else
    makeDescriptor key label .string inferInputFilter

/-- Append a sampled value to its key's bucket, inserting a fresh bucket at
the end on first sight (JS `Map` insertion order). -/
def addKV (acc : List (String × List JSValue)) (key : String) (v : JSValue) :
    List (String × List JSValue) :=
  match acc with
  | [] => [(key, [v])]
  | (k, vs) :: rest => if k = key then (k, vs ++ [v]) :: rest else (k, vs) :: addKV rest key v

/-- Fold one row into the key/values map; non-object rows are skipped. -/
def collectRow (acc : List (String × List JSValue)) (row : JSValue) :
    List (String × List JSValue) :=
  match row with
  | .obj fields => fields.foldl (fun a p => addKV a p.1 p.2) acc
  | _ => acc

/-- The key/value collection loop of `inferSchemaFromJSON`. -/
def collectKeyValues (rows : List JSValue) : List (String × List JSValue) :=
  rows.foldl collectRow []

/-- `inferSchemaFromJSON(data)`: infer a SchemaJSON from raw sample rows. -/
def inferSchemaFromJSON (dateParseOk : String → Bool) (rows : List JSValue) : SchemaJSON :=
  if rows.isEmpty then { columns := [] }
  else { columns := (collectKeyValues rows).map (fun p => inferColDescriptor dateParseOk p.1 p.2) }

-- ── Filter query language (modelled from the spec) ──────────────────────────
--
-- The repository ships only the unit tests of `deserialize` and
-- `serializeColumFilters` (and of the delimiter constants they import); the
-- implementation module itself is not part of the source tree.  The
-- definitions below are therefore modelled from the specification text.

/-- Split a token at its first colon; `none` when it has no colon. -/
def splitFirstColonAux : List Char → Option (List Char × List Char)
  | [] => none
  | c :: cs =>
    if c = ':' then some ([], cs)
    else (splitFirstColonAux cs).map (fun p => (c :: p.1, p.2))

/-- Modelled from the spec: split a token on its first colon into
`(name, value)` and apply the skip rules — drop the token when it has no
colon, an empty name, or an empty value. -/
def tokenPair (tok : String) : Option (String × String) :=
  match splitFirstColonAux tok.data with
  | none => none
  | some (n, v) => if n.isEmpty || v.isEmpty then none else some (String.mk n, String.mk v)

/-- Strip leading and trailing whitespace from a character list. -/
def trimChars (l : List Char) : List Char :=
  (((l.dropWhile Char.isWhitespace).reverse.dropWhile Char.isWhitespace).reverse)

/-- Split a character list on whitespace characters. -/
def splitWsAux (cur : List Char) : List Char → List (List Char)
  | [] => [cur.reverse]
  | c :: cs => if c.isWhitespace then cur.reverse :: splitWsAux [] cs else splitWsAux (c :: cur) cs

/-- Modelled from the spec: trim the input and split it on whitespace into
tokens. -/
def queryTokens (input : String) : List String :=
  (splitWsAux [] (trimChars input.data)).map String.mk

/-- JS object assignment `obj[name] = value`: replace the existing binding in
place or append a fresh one, so a repeated name keeps its last value. -/
def setKey (obj : List (String × String)) (name value : String) : List (String × String) :=
  match obj with
  | [] => [(name, value)]
  | (k, v) :: rest => if k = name then (name, value) :: rest else (k, v) :: setKey rest name value

/-- Look a name up in the accumulated flat object. -/
def getKey (obj : List (String × String)) (name : String) : Option String :=
  match obj with
  | [] => none
  | (k, v) :: rest => if k = name then some v else getKey rest name

/-- Modelled from the spec: accumulate the surviving `(name, value)` pairs of
the token list into a flat object, last occurrence of a name winning. -/
def accumulate (toks : List String) : List (String × String) :=
  toks.foldl
    (fun obj t =>
      match tokenPair t with
      | none => obj
      | some p => setKey obj p.1 p.2)
    []

/-- The flat object parsed out of a filter-query string. -/
def accumObj (input : String) : List (String × String) :=
  accumulate (queryTokens input)

/-- The tagged result of a filter-query parse: success with the typed value,
or failure with the validation error — never an exception. -/
inductive ParseResult (σ : Type) where
  | success (data : σ)
  | failure (error : String)
deriving DecidableEq, Repr

/-- Modelled from the spec: `deserialize(schema)(input)` — parse the query
string and validate the accumulated object against the caller-supplied
schema, returning a tagged result. -/
def deserialize {σ : Type} (validate : List (String × String) → Except String σ)
    (input : String) : ParseResult σ :=
  match validate (accumObj input) with
  | .ok v => .success v
  | .error e => .failure e

/-- Modelled from the spec: the three distinct single-purpose delimiter
characters of the wire contract (array items, timerange pairs, slider pairs).
Their concrete identities live in the absent delimiters module, so they are
kept abstract. -/
structure Delims where
  array : String
  slider : String
  range : String

/-- A filter value: a plain scalar or an array of scalars. -/
inductive FilterValue where
  | scalar (s : ScalarValue)
  | list (xs : List ScalarValue)
deriving DecidableEq, Repr

/-- The slice of a `DataTableFilterField` the serializer consults: its key,
its filter UI kind, and the `commandDisabled` exclusion flag. -/
structure FilterFieldDescriptor where
  value : String
  type : FilterType
  commandDisabled : Bool := false
deriving DecidableEq, Repr

/-- Template-literal rendering of one scalar filter value. -/
def renderScalar : ScalarValue → String
  | .str s => s
  | .num q => jsNumRepr q
  | .bool b => if b then "true" else "false"

/-- The per-kind delimiter used to join array values. -/
def delimFor (d : Delims) : FilterType → String
  | .checkbox => d.array
  | .slider => d.slider
  | .timerange => d.range
  | .input => d.array

/-- Modelled from the spec: render one filter value with the codec selected
by the matched descriptor's filter kind. -/
def renderValue (d : Delims) (t : FilterType) : FilterValue → String
  | .scalar s => renderScalar s
  | .list xs => String.intercalate (delimFor d t) (xs.map renderScalar)

/-- Modelled from the spec: one entry's contribution — empty when the key
matches no descriptor or the descriptor is excluded, else `key:value `. -/
def renderEntry (d : Delims) (fields : List FilterFieldDescriptor)
    (e : String × FilterValue) : String :=
  match fields.find? (fun f => f.value = e.1) with
  | none => ""
  | some f => if f.commandDisabled then "" else e.1 ++ ":" ++ renderValue d f.type e.2 ++ " "

/-- Modelled from the spec: `serializeColumFilters(columnFilters, filterFields)`
— concatenate the rendered tokens in input order (`filterFields` may be
absent, in which case every entry is skipped). -/
def serializeColumFilters (d : Delims) (entries : List (String × FilterValue))
    (fields : Option (List FilterFieldDescriptor)) : String :=
  entries.foldl (fun acc e => acc ++ renderEntry d (fields.getD []) e) ""

-- ── Type-level filter constraints (types.ts `ColBuilder<T, F>`) ─────────────

/-- The legal-filter-kind set `F` that types.ts assigns to each data kind. -/
def legalFilters : ColKind → List FilterType
  | .string => [.input]
  | .number => [.input, .slider, .checkbox]
  | .boolean => [.checkbox]
  | .timestamp => [.timerange]
  | .enum => [.checkbox]
  | .array => [.checkbox]
  | .record => []

/-- A builder together with its compile-time capability set `F`: the generic
parameter of `ColBuilder<T, F>` made explicit. -/
structure TypedBuilder where
  legal : List FilterType
  config : ColConfig

/-- `notFilterable()` at the type level: the result's `F` is `never`. -/
def TypedBuilder.notFilterable (b : TypedBuilder) : TypedBuilder :=
  { legal := [], config := ColBuilder.notFilterable b.config }

/-- `filterable(type, options)` at the type level: callable only with
evidence that the requested kind is in the builder's capability set,
mirroring the `type: F & ...` overload constraints. -/
def TypedBuilder.filterable (b : TypedBuilder) (t : FilterType) (opts : FilterableOpts)
    (_h : t ∈ b.legal) : TypedBuilder :=
  { legal := b.legal, config := ColBuilder.filterable b.config (some t) opts }

-- ── Specification-side predicates and result shapes ─────────────────────────

/-- Capitalize the first character of a string (empty stays empty): the
replacement label the validator's fix hint suggests for a key. -/
def capFirst (s : String) : String :=
  match s.data with
  | [] => ""
  | c :: rest => String.mk (c.toUpper :: rest)

/-- A column passes `validateSchema`: non-empty label, and any slider filter
has both bounds defined with `min ≤ max`. -/
def columnOk (c : ColConfig) : Bool :=
  (c.cfg.label != "") &&
  (match c.cfg.filter with
   | some f =>
     (f.type != .slider) ||
     (match f.min, f.max with
      | some mn, some mx => decide (mn ≤ mx)
      | _, _ => false)
   | none => true)

/-- The display configuration `deserializeSchema` ends up with: the replayed
built-in display, or the factory's default when no replay branch applies. -/
def displayResult (d : ColumnDescriptor) (old : DisplayConfig) : DisplayConfig :=
  let displayType := if d.display.type = "custom" then defaultDisplayType d.dataType else d.display.type
  if displayType = "number" ∧ optStrTruthy d.display.unit then .number d.display.unit
  else if displayType = "text" then .text
  else if displayType = "code" then .code
  else if displayType = "boolean" then .boolean
  else if displayType = "badge" then .badge
  else if displayType = "timestamp" then .timestamp
  else old

/-- The filter configuration `deserializeSchema` ends up with, as a function
of the descriptor and the factory's pre-existing filter. -/
def filterResult (d : ColumnDescriptor) (old : Option FilterConfig) : Option FilterConfig :=
  match d.filter with
  | none => none
  | some f =>
    let base : FilterConfig :=
      if f.type = .slider ∧ f.min.isSome ∧ f.max.isSome then
        { type := .slider
          defaultOpen := (old.map (·.defaultOpen)).getD false
          commandDisabled := (old.map (·.commandDisabled)).getD false
          min := f.min, max := f.max }
      else if f.type = .checkbox then
        { type := .checkbox
          defaultOpen := (old.map (·.defaultOpen)).getD false
          commandDisabled := (old.map (·.commandDisabled)).getD false
          options := f.options }
      else if f.type = .timerange then
        { type := .timerange
          defaultOpen := (old.map (·.defaultOpen)).getD false
          commandDisabled := (old.map (·.commandDisabled)).getD false }
      else
        { type := .input
          defaultOpen := (old.map (·.defaultOpen)).getD false
          commandDisabled := (old.map (·.commandDisabled)).getD false }
    some { base with
      defaultOpen := base.defaultOpen || f.defaultOpen
      commandDisabled := base.commandDisabled || f.commandDisabled }

/-- The claim's hypothesis on a column: only built-in (non-custom) display,
filter and sheet configurations — no custom cell renderer, no custom filter
option renderer, no sheet component or condition. -/
def noCustomColumn (c : ColConfig) : Bool :=
  (c.cfg.display != .custom) &&
  (match c.cfg.filter with
   | none => true
   | some f => !f.component) &&
  (match c.cfg.sheet with
   | none => true
   | some s => !s.component && !s.condition)

/-- Structural invariants every configuration reachable through the typed
builder API satisfies: `enumValues` present iff the kind is `enum`,
`arrayItem` present iff the kind is `array`, checkbox filters carry no
numeric bounds, and non-checkbox filters carry no options (and `input` /
`timerange` no bounds). -/
def wellFormedColumn (c : ColConfig) : Bool :=
  (c.cfg.enumValues.isSome == (c.cfg.kind == .enum)) &&
  (match c.cfg.kind, c.cfg.arrayItem with
   | .array, some _ => true
   | .array, none => false
   | _, some _ => false
   | _, none => true) &&
  (match c.cfg.filter with
   | none => true
   | some f =>
     match f.type with
     | .checkbox => f.min.isNone && f.max.isNone
     | .slider => f.options.isNone
     | .input => f.options.isNone && f.min.isNone && f.max.isNone
     | .timerange => f.options.isNone && f.min.isNone && f.max.isNone)

/-- The extra conditions the round-trip law actually needs beyond the claim's
"built-in only" hypothesis: a unit-less `number` display only on `number`
columns, sliders with both bounds, and array columns with `enum` items. -/
def roundTripSafe (c : ColConfig) : Bool :=
  (match c.cfg.display with
   | .number u => optStrTruthy u || (c.cfg.kind == .number)
   | _ => true) &&
  (match c.cfg.filter with
   | some f => (f.type != .slider) || (f.min.isSome && f.max.isSome)
   | none => true) &&
  (match c.cfg.kind, c.cfg.arrayItem with
   | .array, some item => (item.cfg.kind == .enum) && item.cfg.enumValues.isSome
   | _, _ => true)

/-- Descriptor-level conditions under which `deserializeSchema` followed by
`serializeSchema` reproduces a descriptor exactly: the display payload. -/
def goodDisplay (d : ColumnDescriptor) : Bool :=
  (d.display.unit.isNone &&
    ((d.display.type == "text") || (d.display.type == "code") ||
     (d.display.type == "boolean") || (d.display.type == "badge") ||
     (d.display.type == "timestamp"))) ||
  ((d.display.type == "number") &&
    (match d.display.unit with
     | none => d.dataType == .number
     | some u => u != ""))

/-- Descriptor-level round-trip conditions: the filter payload. -/
def goodFilter : Option FilterDescriptor → Bool
  | none => true
  | some f =>
    match f.type with
    | .slider => f.min.isSome && f.max.isSome && f.options.isNone
    | .checkbox => f.min.isNone && f.max.isNone
    | .input => f.options.isNone && f.min.isNone && f.max.isNone
    | .timerange => f.options.isNone && f.min.isNone && f.max.isNone

/-- Descriptor-level round-trip conditions: the sheet payload (no falsy
non-absent strings, which serialization would drop). -/
def goodSheet : Option SheetDescriptor → Bool
  | none => true
  | some s => (s.label != some "") && (s.className != some "") && (s.skeletonClassName != some "")

/-- Descriptor-level round-trip conditions: data kind versus the enum /
array-item payloads. -/
def goodKind (d : ColumnDescriptor) : Bool :=
  match d.dataType with
  | .enum => d.enumValues.isSome && d.arrayItemType.isNone
  | .array =>
    d.enumValues.isNone &&
    (match d.arrayItemType with
     | some ai => (ai.dataType == .enum) && ai.enumValues.isSome
     | none => false)
  | _ => d.enumValues.isNone && d.arrayItemType.isNone

/-- All descriptor-level round-trip conditions together. -/
def goodDescriptor (d : ColumnDescriptor) : Bool :=
  goodKind d && (d.description != some "") && goodDisplay d &&
    goodFilter d.filter && goodSheet d.sheet

/-- The last surviving value for a name across a token list: the skip rules
applied to each token, the latest occurrence winning. -/
def lastWins (toks : List String) (name : String) : Option String :=
  (((toks.filterMap tokenPair).reverse).find? (fun p => p.1 == name)).map (·.2)

/-- The display configuration each `col.*` factory starts from, by kind. -/
def defaultDisplayCfg : ColKind → DisplayConfig
  | .string => .text
  | .number => .number none
  | .boolean => .boolean
  | .timestamp => .timestamp
  | .enum => .badge
  | .array => .badge
  | .record => .text

/-- Concatenation of a list of strings (used to specify the serializer's
output as the in-order concatenation of per-entry renderings). -/
def concatAll : List String → String
  | [] => ""
  | s :: rest => s ++ concatAll rest

/-- A sample schema checker for the filter-query parser, mirroring the
`z.object(\x7b q, page \x7d)` schema of the unit tests: both names required. -/
def checkQP (obj : List (String × String)) : Except String (String × String) :=
  match getKey obj "q", getKey obj "page" with
  | some q, some p => .ok (q, p)
  | _, _ => .error "missing q or page"

/-- The rational 2000000000000.5: a non-integral JS number lying inside the
13-digit Unix-millisecond range (built with an explicit coprimality witness
so that it evaluates by kernel reduction). -/
def halfUnixMs : ℚ :=
  ⟨4000000000001, 2, by decide, Nat.coprime_two_right.mpr ⟨2000000000000, by decide⟩⟩

-- ═════════════════════════════════════════ Theorems ═════════════════════════

/-- Projection/constructor reduction for column configurations. -/
@[simp] theorem ColConfig.cfg_mk (c : ColConfigF ColConfig) : (ColConfig.mk c).cfg = c := rfl

/-- `defaultOpen` only touches the filter's `defaultOpen` flag. -/
theorem defaultOpen_cfg (c : ColConfig) :
    (ColBuilder.defaultOpen c).cfg =
      { c.cfg with filter := c.cfg.filter.map (fun f => { f with defaultOpen := true }) } := by
  obtain ⟨⟨k, ev, ai, opt, lab, desc, disp, sz, hid, sor, fil, sh⟩⟩ := c
  rcases fil with _ | f <;> rfl

/-- `commandDisabled` only touches the filter's `commandDisabled` flag. -/
theorem commandDisabled_cfg (c : ColConfig) :
    (ColBuilder.commandDisabled c).cfg =
      { c.cfg with filter := c.cfg.filter.map (fun f => { f with commandDisabled := true }) } := by
  obtain ⟨⟨k, ev, ai, opt, lab, desc, disp, sz, hid, sor, fil, sh⟩⟩ := c
  rcases fil with _ | f <;> rfl

/-- The label/description replay step in closed form. -/
theorem replayLabel_cfg (d : ColumnDescriptor) (b : ColConfig) :
    (replayLabel d b).cfg =
      { b.cfg with
        label := d.label
        description := if optStrTruthy d.description then d.description else b.cfg.description } := by
  obtain ⟨⟨k, ev, ai, opt, lab, desc, disp, sz, hid, sor, fil, sh⟩⟩ := b
  unfold replayLabel
  rcases hd : d.description with _ | s
  · rfl
  · by_cases hs : s = "" <;> simp [optStrTruthy, hd, hs, ColBuilder.label, ColBuilder.description]

/-- The display replay step in closed form. -/
theorem replayDisplay_cfg (d : ColumnDescriptor) (b : ColConfig) :
    (replayDisplay d b).cfg = { b.cfg with display := displayResult d b.cfg.display } := by
  obtain ⟨⟨k, ev, ai, opt, lab, desc, disp, sz, hid, sor, fil, sh⟩⟩ := b
  unfold replayDisplay displayResult
  dsimp only
  split <;> (try split) <;> (try split) <;> (try split) <;> (try split) <;>
    (try split) <;> (try split) <;> rfl

/-- The filter replay step in closed form. -/
theorem replayFilter_cfg (d : ColumnDescriptor) (b : ColConfig) :
    (replayFilter d b).cfg = { b.cfg with filter := filterResult d b.cfg.filter } := by
  obtain ⟨⟨k, ev, ai, opt, lab, desc, disp, sz, hid, sor, fil, sh⟩⟩ := b
  rcases hd : d.filter with _ | f
  · unfold replayFilter filterResult
    rw [hd]
    rfl
  · obtain ⟨ft, fdo, fcd, fopts, fmin, fmax⟩ := f
    unfold replayFilter filterResult
    rw [hd]
    dsimp only
    rcases fdo with _ | _ <;> rcases fcd with _ | _ <;>
      (try simp only [reduceIte]) <;>
      split <;> (try split) <;> (try split) <;> (try split) <;>
      first
      | exact absurd ‹false = true› Bool.false_ne_true
      | simp [ColBuilder.filterable, ColBuilder.defaultOpen, ColBuilder.commandDisabled, ColConfig.cfg]

/-- The structural-modifier replay step in closed form. -/
theorem replayMods_cfg (d : ColumnDescriptor) (b : ColConfig) :
    (replayMods d b).cfg =
      { b.cfg with
        hidden := b.cfg.hidden || d.hidden
        sortable := b.cfg.sortable || d.sortable
        optional := b.cfg.optional || d.optional
        size := d.size.or b.cfg.size } := by
  obtain ⟨⟨k, ev, ai, opt, lab, desc, disp, sz, hid, sor, fil, sh⟩⟩ := b
  unfold replayMods
  rcases d.size with _ | px <;>
    rcases d.hidden with _ | _ <;>
    rcases d.sortable with _ | _ <;>
    rcases d.optional with _ | _ <;>
    simp [Option.or, ColBuilder.hidden, ColBuilder.sortable, ColBuilder.optional, ColBuilder.size]

/-- The sheet replay step in closed form. -/
theorem replaySheet_cfg (d : ColumnDescriptor) (b : ColConfig) :
    (replaySheet d b).cfg =
      { b.cfg with
        sheet :=
          match d.sheet with
          | none => b.cfg.sheet
          | some s => some
              { label := keepTruthy s.label
                className := keepTruthy s.className
                skeletonClassName := keepTruthy s.skeletonClassName } } := by
  obtain ⟨⟨k, ev, ai, opt, lab, desc, disp, sz, hid, sor, fil, sh⟩⟩ := b
  unfold replaySheet
  rcases d.sheet with _ | s <;> rfl

/-- Every `col.*` factory leaves the replay-relevant defaults unset: no
description, no size, not hidden, not sortable, not optional, no sheet,
empty label. -/
theorem pickFactory_defaults (d : ColumnDescriptor) :
    (pickFactory d).cfg.description = none ∧ (pickFactory d).cfg.size = none ∧
    (pickFactory d).cfg.hidden = false ∧ (pickFactory d).cfg.sortable = false ∧
    (pickFactory d).cfg.optional = false ∧ (pickFactory d).cfg.sheet = none ∧
    (pickFactory d).cfg.label = "" := by
  unfold pickFactory
  split <;> (try split) <;> (try split) <;> (try split) <;> (try split) <;> (try split) <;>
    simp [col.string, col.number, col.boolean, col.timestamp, col.colEnum, col.array, col.record]

/-- Every `col.*` factory's default filter has `defaultOpen` and
`commandDisabled` unset. -/
theorem pickFactory_filter_flags (d : ColumnDescriptor) :
    (((pickFactory d).cfg.filter).map (·.defaultOpen)).getD false = false ∧
    (((pickFactory d).cfg.filter).map (·.commandDisabled)).getD false = false := by
  unfold pickFactory
  split <;> (try split) <;> (try split) <;> (try split) <;> (try split) <;> (try split) <;>
    simp [col.string, col.number, col.boolean, col.timestamp, col.colEnum, col.array, col.record]

/-- The configuration `deserializeSchema` reconstructs for one descriptor, in
closed form: factory-determined structure, descriptor-determined payload. -/
theorem deserializeColumn_cfg (d : ColumnDescriptor) :
    (deserializeColumn d).cfg =
      { kind := (pickFactory d).cfg.kind
        enumValues := (pickFactory d).cfg.enumValues
        arrayItem := (pickFactory d).cfg.arrayItem
        optional := d.optional
        label := d.label
        description := if optStrTruthy d.description then d.description else none
        display := displayResult d (pickFactory d).cfg.display
        size := d.size
        hidden := d.hidden
        sortable := d.sortable
        filter := filterResult d (pickFactory d).cfg.filter
        sheet :=
          match d.sheet with
          | none => none
          | some s => some
              { label := keepTruthy s.label
                className := keepTruthy s.className
                skeletonClassName := keepTruthy s.skeletonClassName } } := by
  obtain ⟨h1, h2, h3, h4, h5, h6, h7⟩ := pickFactory_defaults d
  simp [deserializeColumn, replaySheet_cfg, replayMods_cfg, replayFilter_cfg,
    replayDisplay_cfg, replayLabel_cfg, h1, h2, h3, h4, h5, h6]

/-- C8: every chainable mutator is copy-on-write — the returned builder's
configuration agrees with the original on every field except the one(s) the
mutator targets (and the original value, being pure data in this embedding,
is never mutated).  Each conjunct exhibits the result as the original
configuration with precisely the targeted field overridden. -/
theorem builder_copy_on_write :
    ∀ (c : ColConfig) (t : String) (dsp : DisplayConfig) (ty : Option FilterType)
      (o : FilterableOpts) (px : ℚ) (s : Option SheetConfig),
    (ColBuilder.label c t).cfg = { c.cfg with label := t } ∧
    (ColBuilder.description c t).cfg = { c.cfg with description := some t } ∧
    (ColBuilder.display c dsp).cfg = { c.cfg with display := dsp } ∧
    (∃ f : FilterConfig, (ColBuilder.filterable c ty o).cfg = { c.cfg with filter := some f }) ∧
    (ColBuilder.notFilterable c).cfg = { c.cfg with filter := none } ∧
    (ColBuilder.defaultOpen c).cfg =
      { c.cfg with filter := c.cfg.filter.map (fun f => { f with defaultOpen := true }) } ∧
    (ColBuilder.commandDisabled c).cfg =
      { c.cfg with filter := c.cfg.filter.map (fun f => { f with commandDisabled := true }) } ∧
    (ColBuilder.hidden c).cfg = { c.cfg with hidden := true } ∧
    (ColBuilder.sortable c).cfg = { c.cfg with sortable := true } ∧
    (ColBuilder.size c px).cfg = { c.cfg with size := some px } ∧
    (ColBuilder.optional c).cfg = { c.cfg with optional := true } ∧
    (ColBuilder.sheet c s).cfg = { c.cfg with sheet := some (s.getD {}) } := by
  intro c t dsp ty o px s
  refine ⟨rfl, rfl, rfl, ⟨_, rfl⟩, rfl, defaultOpen_cfg c, commandDisabled_cfg c,
    rfl, rfl, rfl, rfl, rfl⟩

/-- C9: `notFilterable` narrows the builder's legal filter-kind set to the
empty set, so no filter kind is admissible on the result — the evidence
`filterable` demands can never be produced, and the call is rejected. -/
theorem notFilterable_narrows_to_empty :
    ∀ (b : TypedBuilder) (t : FilterType),
      (TypedBuilder.notFilterable b).legal = [] ∧ t ∉ (TypedBuilder.notFilterable b).legal := by
  intro b t
  exact ⟨rfl, by simp [TypedBuilder.notFilterable]⟩

/-- C10: a slider filter descriptor with a missing bound deserializes without
error into an `input` filter (the `filterable("input")` fallback replay), and
the reconstructed column then passes validation whenever its label does. -/
theorem deserialize_slider_missing_bounds (d : ColumnDescriptor) (f : FilterDescriptor)
    (hf : d.filter = some f) (ht : f.type = .slider) (hm : f.min = none ∨ f.max = none) :
    (deserializeColumn d).cfg.filter =
      some { type := .input, defaultOpen := f.defaultOpen, commandDisabled := f.commandDisabled } ∧
    (d.label ≠ "" → validateSchema [(d.key, deserializeColumn d)] = .ok ()) := by
  have hflags := pickFactory_filter_flags d
  have hfilter : (deserializeColumn d).cfg.filter =
      some { type := .input, defaultOpen := f.defaultOpen, commandDisabled := f.commandDisabled } := by
    rw [deserializeColumn_cfg]
    show filterResult d (pickFactory d).cfg.filter = _
    rw [filterResult, hf]
    have hcond : ¬(f.type = .slider ∧ f.min.isSome ∧ f.max.isSome) := by
      rcases hm with hm | hm <;> simp [hm]
    have hcb : ¬(f.type = .checkbox) := by rw [ht]; simp
    have htr : ¬(f.type = .timerange) := by rw [ht]; simp
    simp only [hcond, hcb, htr, if_false, reduceIte]
    simp [hflags.1, hflags.2]
  refine ⟨hfilter, fun hlabel => ?_⟩
  have hlab : (deserializeColumn d).cfg.label = d.label := by rw [deserializeColumn_cfg]
  unfold validateSchema validateColumn
  rw [hlab, hfilter]
  simp [hlabel, validateSchema]

/-- Searching for the empty pattern always succeeds. -/
theorem hasSub_nil_left (l : List Char) : hasSubChars [] l = true := by
  induction l with
  | nil => rfl
  | cons c rest ih => simp [hasSubChars, startsWithChars]

/-- A list starts with itself. -/
theorem startsWith_self_append (s t : List Char) : startsWithChars s (s ++ t) = true := by
  induction s with
  | nil => rfl
  | cons a as ih => simp [startsWithChars, ih]

/-- A match at the head is a match. -/
theorem hasSub_here (sub l : List Char) (h : startsWithChars sub l = true) :
    hasSubChars sub l = true := by
  cases l with
  | nil => cases sub with
    | nil => rfl
    | cons a as => simp [startsWithChars] at h
  | cons c rest => simp [hasSubChars, h]

/-- A pattern occurring contiguously in the middle of a list is found. -/
theorem hasSub_sandwichL (p x s : List Char) : hasSubChars x (p ++ (x ++ s)) = true := by
  induction p with
  | nil => exact hasSub_here _ _ (startsWith_self_append x s)
  | cons c rest ih =>
    cases hx : x ++ (x ++ s) with
    | nil => simp [hasSubChars, ih]
    | cons _ _ => simp [hasSubChars, ih]

/-- A decomposition witness makes the substring test succeed. -/
theorem hasSub_parts (x l p s : List Char) (h : l = p ++ (x ++ s)) :
    hasSubChars x l = true := h ▸ hasSub_sandwichL p x s

/-- A column that satisfies `columnOk` passes the per-column validation. -/
theorem validateColumn_of_ok (k : String) (c : ColConfig) (h : columnOk c = true) :
    validateColumn k c = .ok () := by
  unfold columnOk at h
  simp only [Bool.and_eq_true, bne_iff_ne, ne_eq] at h
  obtain ⟨h1, h2⟩ := h
  unfold validateColumn
  rw [if_neg h1]
  rcases hf : c.cfg.filter with _ | f
  · rfl
  · rw [hf] at h2
    dsimp only at h2 ⊢
    by_cases hs : f.type = .slider
    · rw [if_pos hs]
      rw [hs] at h2
      simp only [bne_self_eq_false, Bool.false_or] at h2
      rcases hmin : f.min with _ | mn <;> rcases hmax : f.max with _ | mx <;>
        rw [hmin, hmax] at h2 <;> simp at h2
      dsimp only
      rw [if_neg (not_lt.mpr h2)]
    · rw [if_neg hs]

/-- Columns that pass validation are skipped by the schema-level loop. -/
theorem validateSchema_append_ok (pre rest : List (String × ColConfig))
    (h : ∀ p ∈ pre, columnOk p.2 = true) :
    validateSchema (pre ++ rest) = validateSchema rest := by
  induction pre with
  | nil => rfl
  | cons hd tl ih =>
    obtain ⟨k, c⟩ := hd
    have hc := h (k, c) (by simp)
    have htl := ih (fun p hp => h p (by simp [hp]))
    simp [validateSchema, validateColumn_of_ok k c hc, htl]

/-- A definition whose every column satisfies `columnOk` validates. -/
theorem validateSchema_all_ok (defn : List (String × ColConfig))
    (h : ∀ p ∈ defn, columnOk p.2 = true) : validateSchema defn = .ok () := by
  have := validateSchema_append_ok defn [] h
  simpa using this

/-- C4 (amended): in a definition whose earlier columns all pass validation,
a column with a non-empty key and an empty label makes `validateSchema`
throw, with a message containing the key in quotes and suggesting the label
obtained by capitalizing the key's first character; and `deserializeSchema`
preserves labels, so a JSON document with an empty label fails identically. -/
theorem validate_missing_label (pre : List (String × ColConfig)) (k : String) (c : ColConfig)
    (post : List (String × ColConfig))
    (hpre : ∀ p ∈ pre, columnOk p.2 = true) (hk : k ≠ "") (hl : c.cfg.label = "") :
    (∃ msg, validateSchema (pre ++ (k, c) :: post) = .error (.error msg) ∧
      containsSub msg ("\"" ++ k ++ "\"") = true ∧
      containsSub msg (".label(\"" ++ capFirst k ++ "\")") = true) ∧
    (∀ dsc : ColumnDescriptor, (deserializeColumn dsc).cfg.label = dsc.label) := by
  constructor
  · rw [validateSchema_append_ok pre _ hpre]
    obtain ⟨kd⟩ := k
    cases kd with
    | nil => exact absurd rfl hk
    | cons ch rest =>
      have hcap : capFirst (String.mk (ch :: rest)) = String.mk (ch.toUpper :: rest) := rfl
      have hfix : labelFix (String.mk (ch :: rest)) = .ok (String.mk (ch.toUpper :: rest)) := rfl
      refine ⟨missingLabelMsg (String.mk (ch :: rest)) (String.mk (ch.toUpper :: rest)), ?_, ?_, ?_⟩
      · simp [validateSchema, validateColumn, hl, hfix]
      · unfold missingLabelMsg
        apply hasSub_parts _ _ ("[createTableSchema] Column ".data)
          ((" is missing a label.\n  Fix: .label(\"" ++ String.mk (ch.toUpper :: rest) ++ "\")").data)
        have e1 : "[createTableSchema] Column \"".data
            = "[createTableSchema] Column ".data ++ ['\"'] := by decide
        have e2 : "\" is missing a label.\n".data
            = ['\"'] ++ " is missing a label.\n".data := by decide
        have e3 : "\"".data = ['\"'] := by decide
        have e4 : " is missing a label.\n".data ++ "  Fix: .label(\"".data
            = " is missing a label.\n  Fix: .label(\"".data := by decide
        simp [String.data_append, e1, e2, e3, ← e4]
      · rw [hcap]
        unfold missingLabelMsg
        apply hasSub_parts _ _
          (("[createTableSchema] Column \"" ++ String.mk (ch :: rest)
            ++ "\" is missing a label.\n  Fix: ").data) []
        simp [String.data_append, List.append_assoc]
  · intro dsc
    rw [deserializeColumn_cfg]

/-- C4 counterexample: on a column with the empty key and an empty label,
validation fails with the runtime `TypeError` of `key[0]!.toUpperCase()`,
whose message neither quotes the key nor suggests any label. -/
theorem validate_missing_label_cex :
    validateSchema [("", col.string)] = .error (.typeError typeErrorMsg) ∧
    containsSub typeErrorMsg "\"\"" = false ∧
    containsSub typeErrorMsg ".label(" = false := by
  refine ⟨rfl, by decide, by decide⟩

/-- C4 witness at a concrete definition. -/
theorem validate_missing_label_witness :
    (∃ msg, validateSchema [("valid", ColBuilder.label col.string "Valid"), ("unlabeled", col.number)]
        = .error (.error msg) ∧
      containsSub msg ("\"" ++ "unlabeled" ++ "\"") = true ∧
      containsSub msg (".label(\"" ++ capFirst "unlabeled" ++ "\")") = true) ∧
    (∀ dsc : ColumnDescriptor, (deserializeColumn dsc).cfg.label = dsc.label) :=
  validate_missing_label [("valid", ColBuilder.label col.string "Valid")] "unlabeled" col.number []
    (by decide) (by decide) (by decide)

/-- C5: with all labels present and all earlier columns valid, a slider
filter whose `min` exceeds its `max` makes construction fail with a message
carrying both numeric values in the "min (X) must be less than max (Y)"
form; and any definition whose every column passes `columnOk` — which only
demands `min ≤ max`, so equal bounds are fine — validates successfully. -/
theorem validate_slider_order (pre : List (String × ColConfig)) (k : String) (c : ColConfig)
    (post : List (String × ColConfig)) (f : FilterConfig) (mn mx : ℚ)
    (hpre : ∀ p ∈ pre, columnOk p.2 = true)
    (hlab : ¬ c.cfg.label = "")
    (hf : c.cfg.filter = some f) (ht : f.type = .slider)
    (hmin : f.min = some mn) (hmax : f.max = some mx) (hlt : mx < mn) :
    (∃ msg, validateSchema (pre ++ (k, c) :: post) = .error (.error msg) ∧
      containsSub msg ("min (" ++ jsNumRepr mn ++ ") must be less than max ("
        ++ jsNumRepr mx ++ ")") = true) ∧
    (∀ defn : List (String × ColConfig),
      (∀ p ∈ defn, columnOk p.2 = true) → validateSchema defn = .ok ()) := by
  constructor
  · rw [validateSchema_append_ok pre _ hpre]
    refine ⟨sliderOrderMsg k mn mx, ?_, ?_⟩
    · simp [validateSchema, validateColumn, hlab, hf, ht, hmin, hmax, hlt]
    · unfold sliderOrderMsg
      apply hasSub_parts _ _ (("[createTableSchema] Column \"" ++ k ++ "\": slider ").data)
        ((".\n  Fix: swap the values — .filterable(\"slider\", \x7b min: " ++ jsNumRepr mx
          ++ ", max: " ++ jsNumRepr mn ++ " \x7d)").data)
      have e1 : "\": slider min (".data = "\": slider ".data ++ "min (".data := by decide
      have e2 : ").\n  Fix: swap the values — .filterable(\"slider\", \x7b min: ".data
          = [')'] ++ ".\n  Fix: swap the values — .filterable(\"slider\", \x7b min: ".data := by
        decide
      have e3 : (")" : String).data = [')'] := by decide
      simp [String.data_append, e1, e2, e3]
  · exact validateSchema_all_ok

/-- C5 witness at concrete definitions: a min-greater-than-max slider fails
with the exact message form, and a min-equals-max slider validates. -/
theorem validate_slider_order_witness :
    ((∃ msg, validateSchema [("latency",
          ColBuilder.filterable (ColBuilder.label col.number "Latency") (some .slider)
            { min := some 100, max := some 10 })] = .error (.error msg) ∧
        containsSub msg ("min (" ++ jsNumRepr 100 ++ ") must be less than max ("
          ++ jsNumRepr 10 ++ ")") = true) ∧
      (∀ defn : List (String × ColConfig),
        (∀ p ∈ defn, columnOk p.2 = true) → validateSchema defn = .ok ())) ∧
    validateSchema [("latency",
        ColBuilder.filterable (ColBuilder.label col.number "Latency") (some .slider)
          { min := some 50, max := some 50 })] = .ok () := by
  have h := validate_slider_order []
    "latency"
    (ColBuilder.filterable (ColBuilder.label col.number "Latency") (some .slider)
      { min := some 100, max := some 10 })
    [] _ 100 10
    (by simp) (by decide) rfl rfl rfl rfl (by norm_num)
  refine ⟨h, ?_⟩
  exact h.2 _ (by decide)

/-- A nonempty all-numeric sample defeats every classification rule that
precedes the Unix-millisecond rule, and a nonempty all-string sample defeats
every rule between ISO strings and the enum/string rules.  Stated as a
bundle of `all = false` facts about a witness element. -/
theorem all_pred_false_of_mem {l : List JSValue} {v : JSValue} (hv : v ∈ l)
    (p : JSValue → Bool) (hp : p v = false) : l.all p = false := by
  simp only [List.all_eq_false]
  exact ⟨v, hv, by simp [hp]⟩

/-- C7 (amended): a sample whose non-null values are all integers in the
13-digit Unix-millisecond range — and which has at least one non-null
value — is classified as `timestamp` with a `timerange` filter; and
`inferSchemaFromJSON` applies this per-key classifier to every collected
key of a nonempty sample. -/
theorem infer_unix_ms_timestamp (dp : String → Bool) (key : String) (values : List JSValue)
    (hne : (values.filter (fun v => !v.isNull)).isEmpty = false)
    (hnum : (values.filter (fun v => !v.isNull)).all
      (fun v => match v with | .num q => isUnixMs q | _ => false) = true) :
    inferColDescriptor dp key values
      = makeDescriptor key (keyToLabel key) .timestamp inferTimerangeFilter ∧
    (∀ rows : List JSValue, rows.isEmpty = false →
      (inferSchemaFromJSON dp rows).columns
        = (collectKeyValues rows).map (fun p => inferColDescriptor dp p.1 p.2)) := by
  constructor
  · obtain ⟨v0, hv0⟩ : ∃ v, v ∈ values.filter (fun v => !v.isNull) := by
      cases h : values.filter (fun v => !v.isNull) with
      | nil => rw [h] at hne; simp at hne
      | cons a l => exact ⟨a, by simp [h]⟩
    have hv0num := List.all_eq_true.mp hnum v0 hv0
    obtain ⟨q0, hq0⟩ : ∃ q, v0 = .num q := by
      cases v0 <;> simp_all
    have hiso : (values.filter (fun v => !v.isNull)).all
        (fun v => match v with | .str s => isIso8601 dp s | _ => false) = false :=
      all_pred_false_of_mem hv0 _ (by rw [hq0])
    unfold inferColDescriptor
    simp [hne, hiso, hnum]
  · intro rows hrows
    unfold inferSchemaFromJSON
    simp [hrows]

/-- C7 counterexample: the non-integral number 2000000000000.5 lies inside
the claimed range, yet the classifier yields a `number` column with an
`input` filter rather than a timestamp. -/
theorem infer_unix_ms_cex :
    ((1000000000000 : ℚ) ≤ halfUnixMs ∧ halfUnixMs ≤ (9999999999999 : ℚ)) ∧
    (inferColDescriptor (fun _ => false) "ts" [.num halfUnixMs]).dataType = .number ∧
    (inferColDescriptor (fun _ => false) "ts" [.num halfUnixMs]).dataType ≠ .timestamp ∧
    (inferColDescriptor (fun _ => false) "ts" [.num halfUnixMs]).filter
      = some { type := .input, defaultOpen := false, commandDisabled := false } := by
  exact ⟨⟨by decide, by decide⟩, by decide, by decide, by decide⟩

/-- C7 witness at a concrete sample. -/
theorem infer_unix_ms_witness :
    inferColDescriptor (fun _ => false) "created_at" [.num 1700000000000, .null]
      = makeDescriptor "created_at" (keyToLabel "created_at") .timestamp inferTimerangeFilter ∧
    (∀ rows : List JSValue, rows.isEmpty = false →
      (inferSchemaFromJSON (fun _ => false) rows).columns
        = (collectKeyValues rows).map (fun p => inferColDescriptor (fun _ => false) p.1 p.2)) :=
  infer_unix_ms_timestamp (fun _ => false) "created_at" [.num 1700000000000, .null]
    (by decide) (by decide)

/-- C6: a sample whose non-null values are all strings and do not all match
the ISO-8601 timestamp rule (which takes precedence) is classified as an
enum with a checkbox filter whose options are the distinct values in
first-seen order when there are at most 10 of them, and as a plain string
with an input filter otherwise; `inferSchemaFromJSON` applies this per-key
classifier to every collected key of a nonempty sample. -/
theorem infer_string_enum (dp : String → Bool) (key : String) (values : List JSValue)
    (hs : (values.filter (fun v => !v.isNull)).all JSValue.isStr = true)
    (hiso : (values.filter (fun v => !v.isNull)).all
      (fun v => match v with | .str s => isIso8601 dp s | _ => false) = false) :
    (let distinct := firstSeenDedup ((values.filter (fun v => !v.isNull)).filterMap
        (fun v => match v with | .str s => some s | _ => none))
     (distinct.length ≤ 10 →
        inferColDescriptor dp key values =
          { key := key
            label := keyToLabel key
            dataType := .enum
            enumValues := some distinct
            optional := false
            hidden := false
            sortable := false
            display := { type := "badge" }
            filter := some { type := .checkbox, defaultOpen := false, commandDisabled := false
                             options := some (distinct.map (fun v => { label := v, value := .str v })) }
            sheet := none }) ∧
     (10 < distinct.length →
        inferColDescriptor dp key values
          = makeDescriptor key (keyToLabel key) .string inferInputFilter)) ∧
    (∀ rows : List JSValue, rows.isEmpty = false →
      (inferSchemaFromJSON dp rows).columns
        = (collectKeyValues rows).map (fun p => inferColDescriptor dp p.1 p.2)) := by
  constructor
  · obtain ⟨v0, hv0⟩ : ∃ v, v ∈ values.filter (fun v => !v.isNull) := by
      cases h : values.filter (fun v => !v.isNull) with
      | nil =>
        rw [h] at hiso
        simp [List.all_nil] at hiso
      | cons a l => exact ⟨a, by simp [h]⟩
    have hne : (values.filter (fun v => !v.isNull)).isEmpty = false := by
      cases h : values.filter (fun v => !v.isNull) with
      | nil => rw [h] at hv0; simp at hv0
      | cons a l => simp [h]
    have hv0str := List.all_eq_true.mp hs v0 hv0
    obtain ⟨s0, hs0⟩ : ∃ s, v0 = .str s := by
      cases v0 <;> simp_all [JSValue.isStr]
    have hunix : (values.filter (fun v => !v.isNull)).all
        (fun v => match v with | .num q => isUnixMs q | _ => false) = false :=
      all_pred_false_of_mem hv0 _ (by rw [hs0])
    have hbool : (values.filter (fun v => !v.isNull)).all JSValue.isBool = false :=
      all_pred_false_of_mem hv0 _ (by rw [hs0]; rfl)
    have hnum : (values.filter (fun v => !v.isNull)).all JSValue.isNum = false :=
      all_pred_false_of_mem hv0 _ (by rw [hs0]; rfl)
    have harr : (values.filter (fun v => !v.isNull)).all JSValue.isArr = false :=
      all_pred_false_of_mem hv0 _ (by rw [hs0]; rfl)
    have hobj : (values.filter (fun v => !v.isNull)).all JSValue.isPlainObj = false :=
      all_pred_false_of_mem hv0 _ (by rw [hs0]; rfl)
    unfold inferColDescriptor
    constructor
    · intro hle
      simp [hne, hiso, hunix, hbool, hnum, harr, hobj, hs, hle]
    · intro hgt
      simp [hne, hiso, hunix, hbool, hnum, harr, hobj, hs, not_le.mpr hgt]
  · intro rows hrows
    unfold inferSchemaFromJSON
    simp [hrows]

/-- C6 witness at concrete samples: three sampled strings with two distinct
values yield an enum with options in first-seen order. -/
theorem infer_string_enum_witness :
    (let distinct := firstSeenDedup (([JSValue.str "error", JSValue.str "warn",
        JSValue.str "error", JSValue.null].filter (fun v => !v.isNull)).filterMap
        (fun v => match v with | .str s => some s | _ => none))
     (distinct.length ≤ 10 →
        inferColDescriptor (fun _ => true) "level"
            [JSValue.str "error", JSValue.str "warn", JSValue.str "error", JSValue.null] =
          { key := "level"
            label := keyToLabel "level"
            dataType := .enum
            enumValues := some distinct
            optional := false
            hidden := false
            sortable := false
            display := { type := "badge" }
            filter := some { type := .checkbox, defaultOpen := false, commandDisabled := false
                             options := some (distinct.map (fun v => { label := v, value := .str v })) }
            sheet := none }) ∧
     (10 < distinct.length →
        inferColDescriptor (fun _ => true) "level"
            [JSValue.str "error", JSValue.str "warn", JSValue.str "error", JSValue.null]
          = makeDescriptor "level" (keyToLabel "level") .string inferInputFilter)) ∧
    (∀ rows : List JSValue, rows.isEmpty = false →
      (inferSchemaFromJSON (fun _ => true) rows).columns
        = (collectKeyValues rows).map (fun p => inferColDescriptor (fun _ => true) p.1 p.2)) :=
  infer_string_enum (fun _ => true) "level"
    [JSValue.str "error", JSValue.str "warn", JSValue.str "error", JSValue.null]
    (by decide) (by decide)

/-- Writing a name stores its value. -/
theorem getKey_setKey_self (obj : List (String × String)) (k v : String) :
    getKey (setKey obj k v) k = some v := by
  induction obj with
  | nil => simp [setKey, getKey]
  | cons hd tl ih =>
    obtain ⟨k', v'⟩ := hd
    by_cases h : k' = k <;> simp [setKey, getKey, h, ih]

/-- Writing a name leaves other names untouched. -/
theorem getKey_setKey_ne (obj : List (String × String)) (k v name : String) (h : name ≠ k) :
    getKey (setKey obj k v) name = getKey obj name := by
  have h' : ¬ k = name := fun e => h e.symm
  induction obj with
  | nil => simp [setKey, getKey, h']
  | cons hd tl ih =>
    obtain ⟨k', v'⟩ := hd
    by_cases hk : k' = k
    · subst hk
      simp [setKey, getKey, h']
    · by_cases hn : k' = name
      · subst hn
        simp [setKey, getKey, hk]
      · simp [setKey, getKey, hk, hn, ih]

/-- The token-accumulation loop realizes last-occurrence-wins lookup. -/
theorem foldl_step_getKey (toks : List String) (obj : List (String × String)) (name : String) :
    getKey (toks.foldl
      (fun obj t => match tokenPair t with | none => obj | some p => setKey obj p.1 p.2) obj) name =
      match ((toks.filterMap tokenPair).reverse.find? (fun p => p.1 == name)) with
      | some p => some p.2
      | none => getKey obj name := by
  induction toks generalizing obj with
  | nil => rfl
  | cons t ts ih =>
    rcases ht : tokenPair t with _ | p
    · simp only [List.foldl, ht, List.filterMap_cons, ih]
    · simp only [List.foldl, ht, List.filterMap_cons, List.reverse_cons, ih,
        List.find?_append]
      rcases hfind : (ts.filterMap tokenPair).reverse.find? (fun p => p.1 == name) with _ | q
      · by_cases hp : p.1 = name
        · subst hp
          simp [hfind, List.find?, Option.or, getKey_setKey_self]
        · have hb : (p.1 == name) = false := by simp [hp]
          simp [hfind, List.find?, hb, Option.or, getKey_setKey_ne obj p.1 p.2 name (Ne.symm hp)]
      · simp [hfind, Option.or]

/-- A colon-free token does not split. -/
theorem sfc_no_colon (l : List Char) (h : ':' ∉ l) : splitFirstColonAux l = none := by
  induction l with
  | nil => rfl
  | cons c cs ih =>
    have hc : ¬ c = ':' := fun e => h (by simp [e])
    simp [splitFirstColonAux, hc, ih (fun m => h (by simp [m]))]

/-- Splitting at the first colon returns the flanking segments. -/
theorem sfc_split (n v : List Char) (h : ':' ∉ n) :
    splitFirstColonAux (n ++ ':' :: v) = some (n, v) := by
  induction n with
  | nil => simp [splitFirstColonAux]
  | cons c cs ih =>
    have hc : ¬ c = ':' := fun e => h (by simp [e])
    simp [splitFirstColonAux, hc, ih (fun m => h (by simp [m]))]

/-- C2 (spec model): the filter-query parser is total and returns exactly the
tagged result of validating the accumulated flat object — success carrying
the typed value or failure carrying the validation error, never an
exception; lookup in the accumulated object is last-occurrence-wins over the
surviving tokens; and the per-token skip rules hold: no colon, an empty
name, or an empty value drop the token, while a well-formed `name:value`
token survives as the pair. -/
theorem deserialize_spec {σ : Type} (validate : List (String × String) → Except String σ)
    (input : String) :
    (∀ v, validate (accumObj input) = .ok v → deserialize validate input = .success v) ∧
    (∀ e, validate (accumObj input) = .error e → deserialize validate input = .failure e) ∧
    (∀ name, getKey (accumObj input) name = lastWins (queryTokens input) name) ∧
    (∀ tok : String, ':' ∉ tok.data → tokenPair tok = none) ∧
    (∀ v : String, tokenPair (":" ++ v) = none) ∧
    (∀ n : String, ':' ∉ n.data → tokenPair (n ++ ":") = none) ∧
    (∀ n v : String, n ≠ "" → v ≠ "" → ':' ∉ n.data →
      tokenPair (n ++ ":" ++ v) = some (n, v)) := by
  refine ⟨?_, ?_, ?_, ?_, ?_, ?_, ?_⟩
  · intro v hv
    simp [deserialize, hv]
  · intro e he
    simp [deserialize, he]
  · intro name
    have h := foldl_step_getKey (queryTokens input) [] name
    unfold accumObj accumulate lastWins
    rw [h]
    rcases hfind : (((queryTokens input).filterMap tokenPair).reverse.find?
        (fun p => p.1 == name)) with _ | q <;> simp [hfind, getKey]
  · intro tok h
    simp [tokenPair, sfc_no_colon _ h]
  · intro v
    have hdata : (":" ++ v).data = ':' :: v.data := by
      rw [String.data_append]
      rfl
    simp [tokenPair, hdata, splitFirstColonAux]
  · intro n h
    have hdata : (n ++ ":").data = n.data ++ ':' :: [] := by
      rw [String.data_append]
    simp [tokenPair, hdata, sfc_split _ _ h]
  · intro n v hn hv h
    have hdata : (n ++ ":" ++ v).data = n.data ++ ':' :: v.data := by
      rw [String.data_append, String.data_append]
      simp
    obtain ⟨nd⟩ := n
    obtain ⟨vd⟩ := v
    cases nd with
    | nil => exact absurd rfl hn
    | cons a as =>
      cases vd with
      | nil => exact absurd rfl hv
      | cons b bs =>
        have e := sfc_split (a :: as) (b :: bs) h
        simp only [List.cons_append] at e
        simp [tokenPair, hdata, e]

/-- C2 witness: the spec's own examples evaluated through the theorem — the
colonless token is skipped and the remaining pairs validate, and each skip
rule fires on its concrete token. -/
theorem deserialize_spec_witness :
    deserialize checkQP "nocolon q:hello page:1" = .success ("hello", "1") ∧
    getKey (accumObj "q:a q:b") "q" = lastWins (queryTokens "q:a q:b") "q" ∧
    tokenPair "nocolon" = none ∧
    tokenPair (":" ++ "orphan") = none ∧
    tokenPair ("q2" ++ ":") = none ∧
    tokenPair ("q" ++ ":" ++ "hello") = some ("q", "hello") := by
  have h1 := deserialize_spec checkQP "nocolon q:hello page:1"
  have h2 := deserialize_spec checkQP "q:a q:b"
  exact ⟨h1.1 ("hello", "1") rfl,
    h2.2.2.1 "q",
    h1.2.2.2.1 "nocolon" (by decide),
    h1.2.2.2.2.1 "orphan",
    h1.2.2.2.2.2.1 "q2" (by decide),
    h1.2.2.2.2.2.2 "q" "hello" (by decide) (by decide) (by decide)⟩

/-- The serializer's fold is the in-order concatenation of the per-entry
renderings. -/
theorem foldl_append_concatAll (d : Delims) (fields : List FilterFieldDescriptor)
    (entries : List (String × FilterValue)) (acc : String) :
    entries.foldl (fun acc e => acc ++ renderEntry d fields e) acc
      = acc ++ concatAll (entries.map (renderEntry d fields)) := by
  induction entries generalizing acc with
  | nil => simp [concatAll]
  | cons e es ih => simp [List.foldl, concatAll, ih, String.append_assoc]

/-- Joining exactly two strings places the separator between them. -/
theorem intercalate_pair (sep a b : String) : String.intercalate sep [a, b] = a ++ sep ++ b := by
  simp [String.intercalate, String.intercalate.go]

/-- A concatenation of empty strings is empty. -/
theorem concatAll_all_empty (l : List String) (h : ∀ s ∈ l, s = "") : concatAll l = "" := by
  induction l with
  | nil => rfl
  | cons s rest ih =>
    rw [concatAll, h s (by simp), ih (fun s hs => h s (by simp [hs]))]
    rfl

/-- C3 (spec model): `serializeColumFilters` concatenates the per-entry
renderings in input order; an absent `filterFields` list yields the empty
string, as does a list whose every entry is skipped; an entry with no
matching descriptor, or a matching descriptor marked `commandDisabled`,
contributes nothing; and a surviving entry renders as `key:value ` with the
trailing space, the value encoded by the matched descriptor's codec —
scalars as-is, checkbox lists joined with the array delimiter, slider pairs
joined with the slider delimiter, timerange lists joined with the range
delimiter. -/
theorem serializeColumFilters_spec (d : Delims) (fields : List FilterFieldDescriptor)
    (entries : List (String × FilterValue)) :
    serializeColumFilters d entries (some fields)
      = concatAll (entries.map (renderEntry d fields)) ∧
    serializeColumFilters d entries none = "" ∧
    ((∀ e ∈ entries, renderEntry d fields e = "") →
      serializeColumFilters d entries (some fields) = "") ∧
    (∀ k v, fields.find? (fun f => f.value = k) = none → renderEntry d fields (k, v) = "") ∧
    (∀ k v f, fields.find? (fun f => f.value = k) = some f → f.commandDisabled = true →
      renderEntry d fields (k, v) = "") ∧
    (∀ k s f, fields.find? (fun f => f.value = k) = some f → f.commandDisabled = false →
      renderEntry d fields (k, .scalar s) = k ++ ":" ++ renderScalar s ++ " ") ∧
    (∀ k xs f, fields.find? (fun f => f.value = k) = some f → f.commandDisabled = false →
      f.type = .checkbox →
      renderEntry d fields (k, .list xs)
        = k ++ ":" ++ String.intercalate d.array (xs.map renderScalar) ++ " ") ∧
    (∀ k a b f, fields.find? (fun f => f.value = k) = some f → f.commandDisabled = false →
      f.type = .slider →
      renderEntry d fields (k, .list [a, b])
        = k ++ ":" ++ (renderScalar a ++ d.slider ++ renderScalar b) ++ " ") ∧
    (∀ k xs f, fields.find? (fun f => f.value = k) = some f → f.commandDisabled = false →
      f.type = .timerange →
      renderEntry d fields (k, .list xs)
        = k ++ ":" ++ String.intercalate d.range (xs.map renderScalar) ++ " ") := by
  refine ⟨?_, ?_, ?_, ?_, ?_, ?_, ?_, ?_, ?_⟩
  · have h := foldl_append_concatAll d fields entries ""
    unfold serializeColumFilters
    simp only [Option.getD] at h ⊢
    rw [h]
    simp
  · unfold serializeColumFilters
    have hempty : ∀ (acc : String),
        entries.foldl (fun acc e => acc ++ renderEntry d [] e) acc = acc := by
      intro acc
      rw [foldl_append_concatAll]
      rw [concatAll_all_empty _ (fun s hs => ?_)]
      · simp
      · obtain ⟨e, _, he⟩ := List.mem_map.mp hs
        rw [← he]
        rfl
    exact hempty ""
  · intro h
    have hall := foldl_append_concatAll d fields entries ""
    unfold serializeColumFilters
    simp only [Option.getD] at hall ⊢
    rw [hall, concatAll_all_empty _ (fun s hs => ?_)]
    · simp
    · obtain ⟨e, hme, he⟩ := List.mem_map.mp hs
      rw [← he]
      exact h e hme
  · intro k v hfind
    simp [renderEntry, hfind]
  · intro k v f hfind hcd
    simp [renderEntry, hfind, hcd]
  · intro k s f hfind hcd
    simp [renderEntry, hfind, hcd, renderValue]
  · intro k xs f hfind hcd ht
    simp [renderEntry, hfind, hcd, renderValue, delimFor, ht]
  · intro k a b f hfind hcd ht
    simp [renderEntry, hfind, hcd, renderValue, delimFor, ht, intercalate_pair]
  · intro k xs f hfind hcd ht
    simp [renderEntry, hfind, hcd, renderValue, delimFor, ht]

/-- C3 witness: concrete entries and descriptors exercising the skip rule
and the scalar, checkbox, and slider codecs. -/
theorem serializeColumFilters_spec_witness :
    serializeColumFilters ⟨",", "-", "~"⟩
        [("host", .scalar (.str "example.com")), ("level", .list [.str "error", .str "warn"])]
        (some [⟨"host", .input, false⟩, ⟨"level", .checkbox, false⟩])
      = concatAll ([("host", FilterValue.scalar (.str "example.com")),
          ("level", FilterValue.list [.str "error", .str "warn"])].map
          (renderEntry ⟨",", "-", "~"⟩ [⟨"host", .input, false⟩, ⟨"level", .checkbox, false⟩])) ∧
    serializeColumFilters ⟨",", "-", "~"⟩ [("host", .scalar (.str "example.com"))] none = "" ∧
    renderEntry ⟨",", "-", "~"⟩ [⟨"host", .input, false⟩, ⟨"level", .checkbox, false⟩]
      ("unknown", .scalar (.str "foo")) = "" ∧
    renderEntry ⟨",", "-", "~"⟩ [⟨"host", .input, false⟩, ⟨"level", .checkbox, false⟩]
      ("host", .scalar (.str "example.com"))
      = "host" ++ ":" ++ renderScalar (.str "example.com") ++ " " ∧
    renderEntry ⟨",", "-", "~"⟩ [⟨"host", .input, false⟩, ⟨"level", .checkbox, false⟩]
      ("level", .list [.str "error", .str "warn"])
      = "level" ++ ":" ++ String.intercalate "," ([ScalarValue.str "error",
          ScalarValue.str "warn"].map renderScalar) ++ " " ∧
    renderEntry ⟨",", "-", "~"⟩ [⟨"latency", .slider, false⟩] ("latency", .list [.num 0, .num 500])
      = "latency" ++ ":" ++ (renderScalar (.num 0) ++ "-" ++ renderScalar (.num 500)) ++ " " := by
  have h1 := serializeColumFilters_spec ⟨",", "-", "~"⟩
    [⟨"host", .input, false⟩, ⟨"level", .checkbox, false⟩]
    [("host", .scalar (.str "example.com")), ("level", .list [.str "error", .str "warn"])]
  have h2 := serializeColumFilters_spec ⟨",", "-", "~"⟩ [⟨"latency", .slider, false⟩]
    [("host", FilterValue.scalar (.str "example.com"))]
  exact ⟨h1.1,
    h2.2.1,
    h1.2.2.2.1 "unknown" (.scalar (.str "foo")) (by decide),
    h1.2.2.2.2.2.1 "host" (.str "example.com") ⟨"host", .input, false⟩ (by decide) rfl,
    h1.2.2.2.2.2.2.1 "level" [.str "error", .str "warn"] ⟨"level", .checkbox, false⟩
      (by decide) rfl rfl,
    h2.2.2.2.2.2.2.2.1 "latency" (.num 0) (.num 500) ⟨"latency", .slider, false⟩
      (by decide) rfl rfl⟩

/-- C9 witness: a number builder loses all filter capability after
`notFilterable`. -/
theorem notFilterable_narrows_witness :
    (TypedBuilder.notFilterable ⟨legalFilters .number, col.number⟩).legal = [] ∧
    FilterType.slider ∉ (TypedBuilder.notFilterable ⟨legalFilters .number, col.number⟩).legal :=
  notFilterable_narrows_to_empty ⟨legalFilters .number, col.number⟩ .slider

/-- C10 witness at a concrete slider descriptor missing its `min` bound. -/
theorem deserialize_slider_missing_bounds_witness :
    (deserializeColumn
        { key := "latency", label := "Latency", dataType := .number
          optional := false, hidden := false, sortable := false
          display := { type := "number" }
          filter := some { type := .slider, defaultOpen := false, commandDisabled := false
                           max := some 100 }
          sheet := none }).cfg.filter
      = some { type := .input, defaultOpen := false, commandDisabled := false } ∧
    validateSchema [("latency", deserializeColumn
        { key := "latency", label := "Latency", dataType := .number
          optional := false, hidden := false, sortable := false
          display := { type := "number" }
          filter := some { type := .slider, defaultOpen := false, commandDisabled := false
                           max := some 100 }
          sheet := none })] = .ok () := by
  have h := deserialize_slider_missing_bounds
    { key := "latency", label := "Latency", dataType := .number
      optional := false, hidden := false, sortable := false
      display := { type := "number" }
      filter := some { type := .slider, defaultOpen := false, commandDisabled := false
                       max := some 100 }
      sheet := none }
    { type := .slider, defaultOpen := false, commandDisabled := false, max := some 100 }
    rfl rfl (Or.inl rfl)
  exact ⟨h.1, h.2 (by decide)⟩

/-- `keepTruthy` never yields the empty string boxed in `some`. -/
theorem keepTruthy_ne_empty (o : Option String) : keepTruthy o ≠ some "" := by
  rcases o with _ | s
  · simp [keepTruthy]
  · by_cases h : s = "" <;> simp [keepTruthy, optStrTruthy, h]

/-- `keepTruthy` fixes every value other than `some ""`. -/
theorem keepTruthy_eq_self (o : Option String) (h : o ≠ some "") : keepTruthy o = o := by
  rcases o with _ | s
  · rfl
  · have hs : ¬ s = "" := fun e => h (by rw [e])
    simp [keepTruthy, optStrTruthy, hs]

/-- Round-trip of the description field: replay-if-truthy then
serialize-if-truthy restores any value other than `some ""`. -/
theorem desc_roundtrip (o : Option String) (h : o ≠ some "") :
    keepTruthy (if optStrTruthy o then o else none) = o := by
  rcases o with _ | s
  · rfl
  · have hs : ¬ s = "" := fun e => h (by rw [e])
    simp [keepTruthy, optStrTruthy, hs]

/-- The serializer's per-option copy is the identity. -/
theorem foption_map_id (os : List FOption) :
    os.map (fun o => ({ label := o.label, value := o.value } : FOption)) = os := by
  induction os with
  | nil => rfl
  | cons o rest ih => simp [ih]

/-- Factory selection under `goodKind`: the reconstructed kind, enum values,
serialized array-item payload and default display all match the descriptor. -/
theorem kind_roundtrip (d : ColumnDescriptor) (hg : goodKind d = true) :
    (pickFactory d).cfg.kind = d.dataType ∧
    (pickFactory d).cfg.enumValues = d.enumValues ∧
    ((pickFactory d).cfg.arrayItem).map
      (fun ai => ArrayItemDescriptor.mk ai.cfg.kind ai.cfg.enumValues) = d.arrayItemType ∧
    (pickFactory d).cfg.display = defaultDisplayCfg d.dataType := by
  obtain ⟨key, label, desc, dataType, ev, ait, opt, hid, sor, size, disp, fil, sh⟩ := d
  cases dataType with
  | enum =>
    rcases ev with _ | vs
    · simp [goodKind] at hg
    · rcases ait with _ | ai
      · simp [pickFactory, col.colEnum, defaultDisplayCfg]
      · simp [goodKind] at hg
  | array =>
    rcases ev with _ | vs
    · rcases ait with _ | ⟨aidt, aiev⟩
      · simp [goodKind] at hg
      · cases aidt <;> (try simp [goodKind] at hg)
        rcases aiev with _ | ws
        · simp [goodKind] at hg
        · simp [pickFactory, col.array, col.colEnum, defaultDisplayCfg]
    · simp [goodKind] at hg
  | boolean =>
    rcases ev with _ | vs
    · rcases ait with _ | ai
      · simp [pickFactory, col.boolean, defaultDisplayCfg]
      · simp [goodKind] at hg
    · simp [goodKind] at hg
  | timestamp =>
    rcases ev with _ | vs
    · rcases ait with _ | ai
      · simp [pickFactory, col.timestamp, defaultDisplayCfg]
      · simp [goodKind] at hg
    · simp [goodKind] at hg
  | number =>
    rcases ev with _ | vs
    · rcases ait with _ | ai
      · simp [pickFactory, col.number, defaultDisplayCfg]
      · simp [goodKind] at hg
    · simp [goodKind] at hg
  | record =>
    rcases ev with _ | vs
    · rcases ait with _ | ai
      · simp [pickFactory, col.record, defaultDisplayCfg]
      · simp [goodKind] at hg
    · simp [goodKind] at hg
  | string =>
    rcases ev with _ | vs
    · rcases ait with _ | ai
      · simp [pickFactory, col.string, defaultDisplayCfg]
      · simp [goodKind] at hg
    · simp [goodKind] at hg

/-- Round-trip of the display payload under `goodDisplay`. -/
theorem display_roundtrip (d : ColumnDescriptor) (hg : goodDisplay d = true)
    (hfac : (pickFactory d).cfg.display = defaultDisplayCfg d.dataType) :
    serializeDisplay (displayResult d (pickFactory d).cfg.display) = d.display := by
  rw [hfac]
  obtain ⟨key, label, desc, dataType, ev, ait, opt, hid, sor, size, disp, fil, sh⟩ := d
  obtain ⟨dty, dun⟩ := disp
  unfold goodDisplay at hg
  dsimp only at hg ⊢
  rcases dun with _ | u
  · simp only [Option.isNone_none, Bool.true_and, Bool.or_eq_true, Bool.and_eq_true,
      beq_iff_eq] at hg
    rcases hg with ((((h | h) | h) | h) | h) | ⟨hn, hdt⟩ <;>
      (try subst h) <;> (try subst hn) <;> (try subst hdt) <;>
      simp [displayResult, serializeDisplay, optStrTruthy, defaultDisplayCfg]
  · simp only [Option.isNone_some, Bool.false_and, Bool.false_or, Bool.and_eq_true,
      beq_iff_eq] at hg
    obtain ⟨hn, hu⟩ := hg
    subst hn
    have hune : ¬ u = "" := by simpa using hu
    simp [displayResult, serializeDisplay, optStrTruthy, hune]

/-- Round-trip of the filter payload under `goodFilter`: the replayed filter
serializes back to the original descriptor. -/
theorem filter_roundtrip (d : ColumnDescriptor) (hg : goodFilter d.filter = true) :
    serializeFilter (filterResult d (pickFactory d).cfg.filter) = d.filter := by
  obtain ⟨hdo, hcd⟩ := pickFactory_filter_flags d
  rcases hf : d.filter with _ | f
  · simp [filterResult, serializeFilter, hf]
  · obtain ⟨ft, fdo, fcd, fopts, fmin, fmax⟩ := f
    rw [hf] at hg
    unfold filterResult
    rw [hf]
    dsimp only
    cases ft with
    | slider =>
      simp only [goodFilter, Bool.and_eq_true, Option.isSome_iff_exists,
        Option.isNone_iff_eq_none] at hg
      obtain ⟨⟨⟨mn, hmn⟩, ⟨mx, hmx⟩⟩, hopts⟩ := hg
      subst hopts
      simp [hmn, hmx, serializeFilter, hdo, hcd]
    | checkbox =>
      simp only [goodFilter, Bool.and_eq_true, Option.isNone_iff_eq_none] at hg
      obtain ⟨hmn, hmx⟩ := hg
      subst hmn
      subst hmx
      rcases fopts with _ | os <;>
        simp [serializeFilter, hdo, hcd, foption_map_id]
    | input =>
      simp only [goodFilter, Bool.and_eq_true, Option.isNone_iff_eq_none] at hg
      obtain ⟨⟨hopts, hmn⟩, hmx⟩ := hg
      subst hopts
      subst hmn
      subst hmx
      simp [serializeFilter, hdo, hcd]
    | timerange =>
      simp only [goodFilter, Bool.and_eq_true, Option.isNone_iff_eq_none] at hg
      obtain ⟨⟨hopts, hmn⟩, hmx⟩ := hg
      subst hopts
      subst hmn
      subst hmx
      simp [serializeFilter, hdo, hcd]

/-- Round-trip of the sheet payload under `goodSheet`. -/
theorem sheet_roundtrip (d : ColumnDescriptor) (hg : goodSheet d.sheet = true) :
    serializeSheet
      (match d.sheet with
       | none => none
       | some s => some
          { label := keepTruthy s.label
            className := keepTruthy s.className
            skeletonClassName := keepTruthy s.skeletonClassName }) = d.sheet := by
  rcases hs : d.sheet with _ | s
  · rfl
  · obtain ⟨sl, sc, sk⟩ := s
    rw [hs] at hg
    simp only [goodSheet, Bool.and_eq_true, bne_iff_ne, ne_eq] at hg
    obtain ⟨⟨h1, h2⟩, h3⟩ := hg
    simp [serializeSheet, keepTruthy_eq_self _ h1, keepTruthy_eq_self _ h2,
      keepTruthy_eq_self _ h3]

/-- The heart of the round-trip law: a descriptor satisfying the
`goodDescriptor` conditions is reproduced exactly by deserializing and
re-serializing its column. -/
theorem roundtrip_column (d : ColumnDescriptor) (hg : goodDescriptor d = true) :
    serializeColumn d.key (deserializeColumn d) = d := by
  unfold goodDescriptor at hg
  simp only [Bool.and_eq_true, bne_iff_ne, ne_eq] at hg
  obtain ⟨⟨⟨⟨hkind, hdesc⟩, hdisp⟩, hfil⟩, hsheet⟩ := hg
  obtain ⟨hk1, hk2, hk3, hk4⟩ := kind_roundtrip d hkind
  have hd := display_roundtrip d hdisp hk4
  have hf := filter_roundtrip d hfil
  have hsh := sheet_roundtrip d hsheet
  have hde := desc_roundtrip d.description hdesc
  unfold serializeColumn
  rw [deserializeColumn_cfg]
  dsimp only
  obtain ⟨key, label, desc, dataType, ev, ait, opt, hid, sor, size, disp, fil, sh⟩ := d
  simp only [ColumnDescriptor.mk.injEq, true_and, and_true]
  exact ⟨hde, hk1, hk2, hk3, hd, hf, hsh⟩

/-- Serialization of a built-in-only, well-formed, round-trip-safe column
yields a descriptor satisfying all `goodDescriptor` conditions. -/
theorem serialize_good (k : String) (c : ColConfig)
    (hnc : noCustomColumn c = true) (hwf : wellFormedColumn c = true)
    (hrs : roundTripSafe c = true) :
    goodDescriptor (serializeColumn k c) = true := by
  obtain ⟨⟨kind, ev, ai, opt, lab, desc, disp, sz, hid, sor, fil, sh⟩⟩ := c
  simp only [noCustomColumn, wellFormedColumn, roundTripSafe, ColConfig.cfg_mk,
    Bool.and_eq_true] at hnc hwf hrs
  obtain ⟨⟨hnc1, hnc2⟩, hnc3⟩ := hnc
  obtain ⟨⟨hwf1, hwf2⟩, hwf3⟩ := hwf
  obtain ⟨⟨hrs1, hrs2⟩, hrs3⟩ := hrs
  unfold goodDescriptor serializeColumn
  simp only [ColConfig.cfg_mk, Bool.and_eq_true]
  refine ⟨⟨⟨⟨?_, ?_⟩, ?_⟩, ?_⟩, ?_⟩
  · -- goodKind
    unfold goodKind
    dsimp only
    cases kind with
    | enum =>
      rcases ev with _ | vs
      · simp at hwf1
      · rcases ai with _ | item
        · simp
        · simp at hwf2
    | array =>
      rcases ev with _ | vs
      · rcases ai with _ | item
        · simp at hwf2
        · simpa using hrs3
      · simp at hwf1
    | string =>
      rcases ev with _ | vs
      · rcases ai with _ | item
        · simp
        · simp at hwf2
      · simp at hwf1
    | number =>
      rcases ev with _ | vs
      · rcases ai with _ | item
        · simp
        · simp at hwf2
      · simp at hwf1
    | boolean =>
      rcases ev with _ | vs
      · rcases ai with _ | item
        · simp
        · simp at hwf2
      · simp at hwf1
    | timestamp =>
      rcases ev with _ | vs
      · rcases ai with _ | item
        · simp
        · simp at hwf2
      · simp at hwf1
    | record =>
      rcases ev with _ | vs
      · rcases ai with _ | item
        · simp
        · simp at hwf2
      · simp at hwf1
  · -- description survives as none-or-truthy
    simpa using keepTruthy_ne_empty desc
  · -- goodDisplay
    unfold goodDisplay serializeDisplay
    dsimp only
    cases disp with
    | text => simp
    | code => simp
    | boolean => simp
    | badge => simp
    | timestamp => simp
    | custom => simp at hnc1
    | number u =>
      by_cases hu : optStrTruthy u = true
      · rcases u with _ | s
        · simp [optStrTruthy] at hu
        · have hs : ¬ s = "" := by simpa [optStrTruthy] using hu
          simp [hu, hs]
      · have hk : kind = .number := by
          rcases hx : kind <;> simp_all
        simp [Bool.not_eq_true] at hu
        simp [hu, hk]
  · -- goodFilter
    rcases fil with _ | f
    · simp [serializeFilter, goodFilter]
    · obtain ⟨ft, fdo, fcd, fopts, fcomp, fmn, fmx, fpr⟩ := f
      unfold serializeFilter goodFilter
      dsimp only
      cases ft with
      | slider =>
        have hb : fmn.isSome && fmx.isSome = true := by simpa using hrs2
        rcases fopts with _ | os
        · simpa using hb
        · simp at hwf3
      | checkbox =>
        obtain ⟨h1, h2⟩ : fmn.isNone = true ∧ fmx.isNone = true := by simpa using hwf3
        simp [Option.isNone_iff_eq_none.mp h1, Option.isNone_iff_eq_none.mp h2]
      | input =>
        obtain ⟨⟨h1, h2⟩, h3⟩ : (fopts.isNone = true ∧ fmn.isNone = true) ∧ fmx.isNone = true := by
          simpa using hwf3
        simp [Option.isNone_iff_eq_none.mp h1, Option.isNone_iff_eq_none.mp h2,
          Option.isNone_iff_eq_none.mp h3]
      | timerange =>
        obtain ⟨⟨h1, h2⟩, h3⟩ : (fopts.isNone = true ∧ fmn.isNone = true) ∧ fmx.isNone = true := by
          simpa using hwf3
        simp [Option.isNone_iff_eq_none.mp h1, Option.isNone_iff_eq_none.mp h2,
          Option.isNone_iff_eq_none.mp h3]
  · -- goodSheet
    rcases sh with _ | s
    · simp [serializeSheet, goodSheet]
    · simp [serializeSheet, goodSheet, keepTruthy_ne_empty]

/-- Inserting a fresh key into a JS object appends it. -/
theorem objInsert_append (acc : List (String × ColConfig)) (k : String) (c : ColConfig)
    (h : ∀ p ∈ acc, p.1 ≠ k) : objInsert acc k c = acc ++ [(k, c)] := by
  induction acc with
  | nil => rfl
  | cons hd tl ih =>
    obtain ⟨k', v'⟩ := hd
    have hne : k' ≠ k := h (k', v') (by simp)
    simp [objInsert, hne, ih (fun p hp => h p (by simp [hp]))]

/-- The deserialization fold over columns with pairwise-distinct keys is a
plain map appended to the accumulator. -/
theorem foldl_objInsert_append (cols : List ColumnDescriptor) :
    ∀ acc : List (String × ColConfig),
    (cols.map (fun d => d.key)).Nodup →
    (∀ d ∈ cols, ∀ p ∈ acc, p.1 ≠ d.key) →
    cols.foldl (fun defn d => objInsert defn d.key (deserializeColumn d)) acc
      = acc ++ cols.map (fun d => (d.key, deserializeColumn d)) := by
  induction cols with
  | nil =>
    intro acc _ _
    simp
  | cons d ds ih =>
    intro acc hnd hdisj
    simp only [List.map_cons, List.nodup_cons] at hnd
    obtain ⟨hknotin, hnd'⟩ := hnd
    have hins : objInsert acc d.key (deserializeColumn d) = acc ++ [(d.key, deserializeColumn d)] :=
      objInsert_append acc d.key _ (fun p hp => hdisj d (by simp) p hp)
    rw [List.foldl_cons, hins,
      ih (acc ++ [(d.key, deserializeColumn d)]) hnd' ?_]
    · simp
    · intro e he p hp
      rcases List.mem_append.mp hp with hp | hp
      · exact hdisj e (by simp [he]) p hp
      · simp only [List.mem_singleton] at hp
        rw [hp]
        intro contra
        have hmem : e.key ∈ ds.map (fun d => d.key) := List.mem_map_of_mem (fun d => d.key) he
        have : d.key = e.key := contra
        rw [this] at hknotin
        exact hknotin hmem

/-- With pairwise-distinct keys, `deserializeSchema` is the in-order map of
the per-column reconstruction. -/
theorem deserializeSchema_of_nodup (cols : List ColumnDescriptor)
    (hnd : (cols.map (fun d => d.key)).Nodup) :
    deserializeSchema ⟨cols⟩ = cols.map (fun d => (d.key, deserializeColumn d)) := by
  unfold deserializeSchema
  simpa using foldl_objInsert_append cols [] hnd (by simp)

/-- C1 (amended): for a definition with distinct keys whose every column is
built-in only (no custom renderers), well formed, and round-trip safe (no
unit-less `number` display on a non-number column, sliders carry both
bounds, array items are enums), serializing, deserializing and serializing
again reproduces the serialized form exactly. -/
theorem serialize_roundtrip (defn : List (String × ColConfig))
    (hnd : (defn.map Prod.fst).Nodup)
    (hnc : ∀ p ∈ defn, noCustomColumn p.2 = true)
    (hwf : ∀ p ∈ defn, wellFormedColumn p.2 = true)
    (hrs : ∀ p ∈ defn, roundTripSafe p.2 = true) :
    serializeSchema (deserializeSchema (serializeSchema defn)) = serializeSchema defn := by
  have hkeys : (((defn.map (fun p => serializeColumn p.1 p.2)).map (fun d => d.key))).Nodup := by
    rw [List.map_map]
    exact hnd
  show serializeSchema (deserializeSchema ⟨defn.map (fun p => serializeColumn p.1 p.2)⟩) = _
  rw [deserializeSchema_of_nodup _ hkeys]
  unfold serializeSchema
  simp only [List.map_map, SchemaJSON.mk.injEq]
  apply List.map_congr_left
  intro p hp
  exact roundtrip_column (serializeColumn p.1 p.2)
    (serialize_good p.1 p.2 (hnc p hp) (hwf p hp) (hrs p hp))

/-- C1 counterexample: `col.string().label("Host").display("number")` uses
only built-in configurations and is well formed, yet its serialized form is
not reproduced — the deserializer cannot replay a unit-less `number` display
and falls back to the string kind's `text` display. -/
theorem serialize_roundtrip_cex :
    (noCustomColumn (ColBuilder.display (ColBuilder.label col.string "Host") (.number none)) = true ∧
     wellFormedColumn (ColBuilder.display (ColBuilder.label col.string "Host") (.number none)) = true) ∧
    serializeSchema (deserializeSchema (serializeSchema
        [("host", ColBuilder.display (ColBuilder.label col.string "Host") (.number none))]))
      ≠ serializeSchema
          [("host", ColBuilder.display (ColBuilder.label col.string "Host") (.number none))] := by
  exact ⟨⟨by decide, by decide⟩, by decide⟩

/-- C1 witness at a concrete four-column definition covering enum/checkbox,
number/slider, timestamp, and a hidden non-filterable column with a sheet. -/
theorem serialize_roundtrip_witness :
    serializeSchema (deserializeSchema (serializeSchema
      [("level", ColBuilder.filterable (ColBuilder.label (col.colEnum ["error", "warn"]) "Level")
          (some .checkbox)
          { options := some [⟨"error", .str "error"⟩, ⟨"warn", .str "warn"⟩] }),
       ("latency", ColBuilder.sortable (ColBuilder.filterable (ColBuilder.label col.number "Latency")
          (some .slider) { min := some 0, max := some 5000 })),
       ("date", ColBuilder.commandDisabled (ColBuilder.label col.timestamp "Date")),
       ("id", ColBuilder.sheet (ColBuilder.hidden (ColBuilder.notFilterable
          (ColBuilder.label col.string "ID"))) (some { label := some "Request ID" }))]))
    = serializeSchema
      [("level", ColBuilder.filterable (ColBuilder.label (col.colEnum ["error", "warn"]) "Level")
          (some .checkbox)
          { options := some [⟨"error", .str "error"⟩, ⟨"warn", .str "warn"⟩] }),
       ("latency", ColBuilder.sortable (ColBuilder.filterable (ColBuilder.label col.number "Latency")
          (some .slider) { min := some 0, max := some 5000 })),
       ("date", ColBuilder.commandDisabled (ColBuilder.label col.timestamp "Date")),
       ("id", ColBuilder.sheet (ColBuilder.hidden (ColBuilder.notFilterable
          (ColBuilder.label col.string "ID"))) (some { label := some "Request ID" }))] :=
  serialize_roundtrip _ (by decide) (by decide) (by decide) (by decide)

end DTF
